import Mathlib

/-!
# clerk-backend: header resolver, sanitizer and profile composer

A shallow embedding of `clerk-backend/main.go` together with the properties
that its specification states about it.

Conventions of the embedding

* A Go `string` is a sequence of bytes: `GoString` is a list of naturals, each
  below 256 for a string that exists at run time.  `len(s)` is `s.length` and
  `s[:n]` is `s.take n`.
* A Go pointer `*T` is an `Option T`, `nil` being `none`.
* A Go `map[string]T` is an association list that is read with `mapIndex`;
  a `nil` map of type `map[string]interface{}` is `none`.
* Functions of the Go standard library are embedded from their documented
  behaviour under their Go names.
-/

set_option linter.dupNamespace false

namespace ClerkBackend

/-! ## Go strings -/

/-- A Go string: its bytes. -/
abbrev GoString := List Nat

/-- The UTF-8 encoding of one code point. -/
def utf8EncodeRune (c : Nat) : List Nat :=
  if c < 0x80 then [c]
  else if c < 0x800 then [0xC0 + c / 64, 0x80 + c % 64]
  else if c < 0x10000 then [0xE0 + c / 4096, 0x80 + c / 64 % 64, 0x80 + c % 64]
  else [0xF0 + c / 262144, 0x80 + c / 4096 % 64, 0x80 + c / 64 % 64, 0x80 + c % 64]

/-- The Go string that a sequence of characters denotes: its UTF-8 bytes. -/
def goStr (s : String) : GoString :=
  s.data.flatMap fun c => utf8EncodeRune c.toNat

/-- Every byte of the string fits in eight bits. -/
def IsBytes (s : GoString) : Prop := ∀ b ∈ s, b < 256

instance (s : GoString) : Decidable (IsBytes s) :=
  inferInstanceAs (Decidable (∀ b ∈ s, b < 256))

/-- The ASCII branch of `strings.ToLower`, on one byte. -/
def asciiLowerByte (c : Nat) : Nat :=
  if 65 ≤ c ∧ c ≤ 90 then c + 32 else c

/-- Go `strings.ToLower`.  A string of ASCII bytes only is lower-cased byte by
byte; any other string is mapped through the Unicode case tables of the
standard library, which are the parameter `unicodeLower`. -/
def ToLower (unicodeLower : GoString → GoString) (s : GoString) : GoString :=
  if s.all (fun c => decide (c < 128)) then s.map asciiLowerByte else unicodeLower s

/-- Go `strings.Contains`: `substr` occurs in `s` as a run of consecutive bytes. -/
def Contains : GoString → GoString → Bool
  | [], substr => substr.isEmpty
  | c :: rest, substr => substr.isPrefixOf (c :: rest) || Contains rest substr

/-- Go `strings.Join`. -/
def Join : List GoString → GoString → GoString
  | [], _ => []
  | [a], _ => a
  | a :: b :: rest, sep => a ++ sep ++ Join (b :: rest) sep

/-- Width in bytes of the white-space rune (`unicode.IsSpace`) that starts the
string, or zero when the string does not start with one.  The lead bytes
`C2`, `E1`, `E2`, `E3` are never continuation bytes, so in a left-to-right
decoding every occurrence of one of these patterns is a rune of its own. -/
def spaceWidth : GoString → Nat
  | 0xC2 :: b :: _ => if b = 0x85 ∨ b = 0xA0 then 2 else 0
  | 0xE1 :: 0x9A :: 0x80 :: _ => 3
  | 0xE2 :: 0x80 :: b :: _ =>
      if (0x80 ≤ b ∧ b ≤ 0x8A) ∨ b = 0xA8 ∨ b = 0xA9 ∨ b = 0xAF then 3 else 0
  | 0xE2 :: 0x81 :: 0x9F :: _ => 3
  | 0xE3 :: 0x80 :: 0x80 :: _ => 3
  | c :: _ => if c = 9 ∨ c = 10 ∨ c = 11 ∨ c = 12 ∨ c = 13 ∨ c = 32 then 1 else 0
  | [] => 0

/-- The scan of `strings.Fields`: `skip` bytes of a white-space rune are still
to be passed over, `cur` is the field read so far. -/
def fieldsAux : Nat → GoString → GoString → List GoString
  | _, cur, [] => if cur.isEmpty then [] else [cur]
  | skip + 1, cur, _ :: rest => fieldsAux skip cur rest
  | 0, cur, c :: rest =>
      if 0 < spaceWidth (c :: rest) then
        (if cur.isEmpty then [] else [cur]) ++ fieldsAux (spaceWidth (c :: rest) - 1) [] rest
      else fieldsAux 0 (cur ++ [c]) rest

/-- Go `strings.Fields`: the maximal runs of bytes between white space. -/
def Fields (s : GoString) : List GoString := fieldsAux 0 [] s

/-! ## The sanitizer -/

/-- What `encoding/json` stores in an `interface{}`: the dynamic values that
the preferences and metadata of a client payload are made of.  A number is a
`float64`, kept by its bit pattern. -/
inductive Value where
  | null
  | bool (b : Bool)
  | num (bits : Nat)
  | str (s : GoString)
  | seq (xs : List Value)
  | map (m : List (GoString × Value))

/-- Go `m[k]` on a non-nil `map[string]interface{}`. -/
def mapIndex (m : List (GoString × Value)) (k : GoString) : Option Value :=
  match m with
  | [] => none
  | (k', v) :: rest => if k' = k then some v else mapIndex rest k

/-- The list `sensitiveKeys` of `sanitizeMap`. -/
def sensitiveKeys : List GoString :=
  [goStr "password", goStr "token", goStr "secret", goStr "key", goStr "auth",
   goStr "credential"]

/-- The flag `isSensitive` that `sanitizeMap` computes for the key `k`. -/
def isSensitive (unicodeLower : GoString → GoString) (k : GoString) : Bool :=
  sensitiveKeys.any fun sensitive => Contains (ToLower unicodeLower k) sensitive

/-- The redaction marker. -/
def redacted : GoString := goStr "[REDACTED]"

/-- The truncation marker. -/
def truncated : GoString := goStr "...[TRUNCATED]"

mutual
/-- The `else` branch of the loop body of `sanitizeMap`: what is stored under a
key that is not sensitive. -/
def sanitizeValue (unicodeLower : GoString → GoString) : Value → Value
  | .map nestedMap => .map (sanitizeEntries unicodeLower nestedMap)
  | .str s => if s.length > 1000 then .str (s.take 1000 ++ truncated) else .str s
  | .null => .null
  | .bool b => .bool b
  | .num bits => .num bits
  | .seq xs => .seq xs
/-- The loop of `sanitizeMap` over the entries of a non-nil map. -/
def sanitizeEntries (unicodeLower : GoString → GoString) :
    List (GoString × Value) → List (GoString × Value)
  | [] => []
  | (k, v) :: rest =>
      (k, if isSensitive unicodeLower k then .str redacted
          else sanitizeValue unicodeLower v) :: sanitizeEntries unicodeLower rest
end

/-- Go `sanitizeMap`; `nil` is mapped to `nil`. -/
def sanitizeMap (unicodeLower : GoString → GoString) :
    Option (List (GoString × Value)) → Option (List (GoString × Value))
  | none => none
  | some data => some (sanitizeEntries unicodeLower data)

/-! ## The identity record, the client payload and the composed profile -/

/-- The fields of `clerk.EmailAddress` that the program reads. -/
structure EmailAddress where
  ID : GoString
  EmailAddress : GoString

/-- The fields of `clerk.PhoneNumber` that the program reads. -/
structure PhoneNumber where
  ID : GoString
  PhoneNumber : GoString

/-- The fields of `clerk.Web3Wallet` that the program reads. -/
structure Web3Wallet where
  ID : GoString
  Web3Wallet : GoString

/-- The fields of `clerk.User`, the identity record of the provider, that the
program reads.  `Username`, `FirstName`, `LastName`, `ImageURL`,
`PrimaryEmailAddressID` are of type `*string` and `LastSignInAt` of type
`*int64`; the metadata partitions are of type `interface{}`. -/
structure User where
  ID : GoString
  Username : Option GoString
  FirstName : Option GoString
  LastName : Option GoString
  ImageURL : Option GoString
  PrimaryEmailAddressID : Option GoString
  EmailAddresses : List EmailAddress
  PhoneNumbers : List PhoneNumber
  Web3Wallets : List Web3Wallet
  ExternalAccounts : List Value
  PublicMetadata : Value
  PrivateMetadata : Value
  UnsafeMetadata : Value
  CreatedAt : Int
  UpdatedAt : Int
  LastSignInAt : Option Int
  Banned : Bool
  Locked : Bool
  TwoFactorEnabled : Bool

/-- Go `FrontendUserInfo`: the identity data that the client supplies. -/
structure FrontendUserInfo where
  UserId : GoString
  Username : GoString
  Email : GoString
  Name : GoString
  Avatar : GoString
  Preferences : Option (List (GoString × Value))
  Metadata : Option (List (GoString × Value))

/-- The `interface{}` values of the composed profile, each with its dynamic
type.  `nil` is the interface without a dynamic type, which is also what
indexing the profile at a missing key yields; `stringPtr none` is a nil
pointer of dynamic type `*string`.  `frontendInfo` is the seven-key map
literal built from the client payload. -/
inductive Dyn where
  | nil
  | string (s : GoString)
  | stringPtr (p : Option GoString)
  | bool (b : Bool)
  | int64 (n : Int)
  | int64Ptr (p : Option Int)
  | emails (es : List EmailAddress)
  | phones (ps : List PhoneNumber)
  | wallets (ws : List Web3Wallet)
  | values (xs : List Value)
  | value (v : Value)
  | frontendInfo (info : FrontendUserInfo)

/-- Go `x == nil` for an `interface{}`: true only without a dynamic type. -/
def Dyn.isNil : Dyn → Bool
  | .nil => true
  | _ => false

/-- Go `x == s` for an `interface{}` and a string: the dynamic type is
`string` and the value is `s`. -/
def Dyn.eqString : Dyn → GoString → Bool
  | .string t, s => decide (t = s)
  | _, _ => false

/-- The composed profile, a `map[string]interface{}`. -/
abbrev Profile := List (GoString × Dyn)

/-- Go `profile[k]`: the zero value `nil` at a missing key. -/
def Profile.get : Profile → GoString → Dyn
  | [], _ => .nil
  | (k', d) :: rest, k => if k' = k then d else Profile.get rest k

/-- Go `profile[k] = d`. -/
def Profile.set : Profile → GoString → Dyn → Profile
  | [], k, d => [(k, d)]
  | (k', d') :: rest, k, d =>
      if k' = k then (k, d) :: rest else (k', d') :: Profile.set rest k d

/-- Go `getStringValue`. -/
def getStringValue (s : Option GoString) : GoString :=
  match s with
  | none => []
  | some v => v

/-- Go `getPrimaryEmail`. -/
def getPrimaryEmail (user : User) : GoString :=
  match user.EmailAddresses, user.PrimaryEmailAddressID with
  | first :: rest, some primaryID =>
      match (first :: rest).find? fun email => decide (email.ID = primaryID) with
      | some email => email.EmailAddress
      | none => first.EmailAddress
  | _, _ => []

/-- Go `isUserVerified`. -/
def isUserVerified (user : User) : Bool :=
  match user.EmailAddresses, user.PrimaryEmailAddressID with
  | first :: rest, some primaryID =>
      (first :: rest).any fun email => decide (email.ID = primaryID)
  | _, _ => false

/-- Go `hasTwoFactorEnabled`. -/
def hasTwoFactorEnabled (user : User) : Bool := user.TwoFactorEnabled

/-- Go `hasPasswordEnabled`. -/
def hasPasswordEnabled (user : User) : Bool := decide (user.ExternalAccounts.length > 0)

/-- The map literal that `buildDetailedUserProfile` starts from. -/
def baseProfile (user : User) : Profile :=
  [ (goStr "id", .string user.ID),
    (goStr "username", .stringPtr user.Username),
    (goStr "firstName", .string (getStringValue user.FirstName)),
    (goStr "lastName", .string (getStringValue user.LastName)),
    (goStr "fullName",
      .string (getStringValue user.FirstName ++ goStr " " ++ getStringValue user.LastName)),
    (goStr "primaryEmail", .string (getPrimaryEmail user)),
    (goStr "emails", .emails user.EmailAddresses),
    (goStr "imageUrl", .stringPtr user.ImageURL),
    (goStr "hasImage", .bool (user.ImageURL.any fun url => decide (url ≠ []))),
    (goStr "createdAt", .int64 user.CreatedAt),
    (goStr "updatedAt", .int64 user.UpdatedAt),
    (goStr "banned", .bool user.Banned),
    (goStr "locked", .bool user.Locked),
    (goStr "verified", .bool (isUserVerified user)),
    (goStr "publicMetadata", .value user.PublicMetadata),
    (goStr "privateMetadata", .value user.PrivateMetadata),
    (goStr "unsafeMetadata", .value user.UnsafeMetadata),
    (goStr "externalAccounts", .values user.ExternalAccounts),
    (goStr "lastSignInAt", .int64Ptr user.LastSignInAt),
    (goStr "twoFactorEnabled", .bool (hasTwoFactorEnabled user)),
    (goStr "passwordEnabled", .bool (hasPasswordEnabled user)) ]

/-- The statements of `buildDetailedUserProfile` that add the phone numbers
and the wallets. -/
def addCollections (user : User) (profile : Profile) : Profile :=
  let profile :=
    match user.PhoneNumbers with
    | first :: _ =>
        (profile.set (goStr "primaryPhone") (.string first.PhoneNumber)).set
          (goStr "phones") (.phones user.PhoneNumbers)
    | [] => profile
  if user.Web3Wallets.length > 0 then
    profile.set (goStr "web3Wallets") (.wallets user.Web3Wallets)
  else profile

/-- The statement of `buildDetailedUserProfile` that fills a missing handle
from the client payload. -/
def fillUsername (frontendUserInfo : FrontendUserInfo) (profile : Profile) : Profile :=
  if (profile.get (goStr "username")).isNil && decide (frontendUserInfo.Username ≠ []) then
    profile.set (goStr "username") (.string frontendUserInfo.Username)
  else profile

/-- The statement of `buildDetailedUserProfile` that fills the names from the
display name of the client payload. -/
def fillNames (frontendUserInfo : FrontendUserInfo) (profile : Profile) : Profile :=
  if (profile.get (goStr "firstName")).isNil
      || (profile.get (goStr "firstName")).eqString [] then
    if frontendUserInfo.Name ≠ [] then
      match Fields frontendUserInfo.Name with
      | first :: others =>
          let profile := profile.set (goStr "firstName") (.string first)
          if (first :: others).length > 1 then
            profile.set (goStr "lastName") (.string (Join others (goStr " ")))
          else profile
      | [] => profile
    else profile
  else profile

/-- The statement of `buildDetailedUserProfile` that fills a missing avatar
from the client payload. -/
def fillImageUrl (frontendUserInfo : FrontendUserInfo) (profile : Profile) : Profile :=
  if (profile.get (goStr "imageUrl")).isNil && decide (frontendUserInfo.Avatar ≠ []) then
    profile.set (goStr "imageUrl") (.string frontendUserInfo.Avatar)
  else profile

/-- The block of `buildDetailedUserProfile` that runs when the client payload
is present: attach it, then fill the handle, the names and the avatar. -/
def addFrontendInfo (frontendUserInfo : FrontendUserInfo) (profile : Profile) : Profile :=
  let profile := profile.set (goStr "frontendInfo") (.frontendInfo frontendUserInfo)
  let profile := fillUsername frontendUserInfo profile
  let profile := fillNames frontendUserInfo profile
  fillImageUrl frontendUserInfo profile

/-- Go `buildDetailedUserProfile`. -/
def buildDetailedUserProfile (user : User) (frontendUserInfo : Option FrontendUserInfo) :
    Profile :=
  let profile := addCollections user (baseProfile user)
  match frontendUserInfo with
  | some info => addFrontendInfo info profile
  | none => profile

/-! ## Request headers -/

/-- Go `http.Header`: canonical header name to the values received. -/
abbrev Header := List (GoString × List GoString)

/-- The request as the program reads it. -/
structure Request where
  Method : GoString
  Header : Header

/-- The bytes of a header field name (`textproto`): the token characters. -/
def validHeaderFieldByte (c : Nat) : Bool :=
  decide ((48 ≤ c ∧ c ≤ 57) ∨ (65 ≤ c ∧ c ≤ 90) ∨ (97 ≤ c ∧ c ≤ 122)
    ∨ c ∈ [33, 35, 36, 37, 38, 39, 42, 43, 45, 46, 94, 95, 96, 124, 126])

/-- The loop of `textproto.canonicalMIMEHeaderKey`: a letter is made upper
case at the start and after a hyphen, lower case elsewhere. -/
def canonicalLoop : Bool → GoString → GoString
  | _, [] => []
  | upper, c :: rest =>
      let c' :=
        if upper ∧ 97 ≤ c ∧ c ≤ 122 then c - 32
        else if ¬ upper ∧ 65 ≤ c ∧ c ≤ 90 then c + 32
        else c
      c' :: canonicalLoop (decide (c' = 45)) rest

/-- Go `textproto.CanonicalMIMEHeaderKey`: a name with a byte that is not a
token character is returned unchanged. -/
def CanonicalMIMEHeaderKey (s : GoString) : GoString :=
  if s.all validHeaderFieldByte then canonicalLoop true s else s

/-- The values stored under a canonical name. -/
def Header.values : Header → GoString → List GoString
  | [], _ => []
  | (k, vs) :: rest, key => if k = key then vs else Header.values rest key

/-- Go `http.Header.Get`: the first value under the canonical form of the
name, the empty string without one. -/
def Header.Get (h : Header) (key : GoString) : GoString :=
  match h.values (CanonicalMIMEHeaderKey key) with
  | v :: _ => v
  | [] => []

/-! ## Base64 and percent-decoding -/

/-- The alphabet of `base64.StdEncoding`. -/
def encodeStd : GoString :=
  goStr "ABCDEFGHIJKLMNOPQRSTUVWXYZabcdefghijklmnopqrstuvwxyz0123456789+/"

/-- The character of a six-bit value. -/
def encodeSextet (v : Nat) : Nat := encodeStd.getD v 0

/-- The `decodeMap` of `base64.StdEncoding`; `none` stands for the entry `0xff`. -/
def decodeMap (c : Nat) : Option Nat :=
  if encodeStd.indexOf c < 64 then some (encodeStd.indexOf c) else none

/-- Go `base64.StdEncoding.EncodeToString`. -/
def EncodeToString : GoString → GoString
  | b0 :: b1 :: b2 :: rest =>
      let val := b0 * 65536 + b1 * 256 + b2
      encodeSextet (val / 262144 % 64) :: encodeSextet (val / 4096 % 64)
        :: encodeSextet (val / 64 % 64) :: encodeSextet (val % 64) :: EncodeToString rest
  | [b0, b1] =>
      let val := b0 * 65536 + b1 * 256
      [encodeSextet (val / 262144 % 64), encodeSextet (val / 4096 % 64),
       encodeSextet (val / 64 % 64), 61]
  | [b0] =>
      let val := b0 * 65536
      [encodeSextet (val / 262144 % 64), encodeSextet (val / 4096 % 64), 61, 61]
  | [] => []

/-- The loops of `decodeQuantum` that skip over newlines. -/
def skipNewlines : GoString → GoString
  | [] => []
  | c :: rest => if c = 10 ∨ c = 13 then skipNewlines rest else c :: rest

/-- The end of `decodeQuantum`: the six-bit values `dbuf` of one quantum are
put together and the first `dlen - 1` bytes are written. -/
def quantumBytes (dbuf : List Nat) (dlen : Nat) : GoString :=
  let val := dbuf.getD 0 0 * 262144 + dbuf.getD 1 0 * 4096 + dbuf.getD 2 0 * 64 + dbuf.getD 3 0
  [val / 65536 % 256, val / 256 % 256, val % 256].take (dlen - 1)

/-- The decoder of `base64.StdEncoding` (padded, not strict), one source byte at a time;
`dbuf` holds the six-bit values of the quantum being read.  `none` is a
`CorruptInputError`. -/
def decodeFrom : List Nat → GoString → Option GoString
  | dbuf, [] => if dbuf.isEmpty then some [] else none
  | dbuf, c :: rest =>
      match decodeMap c with
      | some out =>
          if dbuf.length = 3 then
            (decodeFrom [] rest).map fun tail => quantumBytes (dbuf ++ [out]) 4 ++ tail
          else decodeFrom (dbuf ++ [out]) rest
      | none =>
          if c = 10 ∨ c = 13 then decodeFrom dbuf rest
          else if c ≠ 61 then none
          else if dbuf.length = 2 then
            match skipNewlines rest with
            | [] => none
            | c2 :: rest2 =>
                if c2 ≠ 61 then none
                else if skipNewlines rest2 ≠ [] then none
                else some (quantumBytes dbuf 2)
          else if dbuf.length = 3 then
            if skipNewlines rest ≠ [] then none else some (quantumBytes dbuf 3)
          else none

/-- Go `base64.StdEncoding.DecodeString`. -/
def DecodeString (s : GoString) : Option GoString := decodeFrom [] s

/-- Go `ishex` of `net/url`. -/
def ishex (c : Nat) : Bool :=
  decide ((48 ≤ c ∧ c ≤ 57) ∨ (97 ≤ c ∧ c ≤ 102) ∨ (65 ≤ c ∧ c ≤ 70))

/-- Go `unhex` of `net/url`. -/
def unhex (c : Nat) : Nat :=
  if 48 ≤ c ∧ c ≤ 57 then c - 48
  else if 97 ≤ c ∧ c ≤ 102 then c - 97 + 10
  else if 65 ≤ c ∧ c ≤ 70 then c - 65 + 10
  else 0

/-- Go `url.QueryUnescape`: `%XX` becomes the byte `XX`, `+` becomes a space;
`none` is an `EscapeError`. -/
def QueryUnescape : GoString → Option GoString
  | [] => some []
  | c :: rest =>
      if c = 37 then
        match rest with
        | h1 :: h2 :: rest2 =>
            if ishex h1 && ishex h2 then
              (QueryUnescape rest2).map fun tail => (unhex h1 * 16 + unhex h2) :: tail
            else none
        | _ => none
      else if c = 43 then (QueryUnescape rest).map fun tail => 32 :: tail
      else (QueryUnescape rest).map fun tail => c :: tail

/-- The unreserved characters of RFC 3986: letters, digits, `-`, `.`, `_`, `~`. -/
def unreserved (c : Nat) : Bool :=
  decide ((48 ≤ c ∧ c ≤ 57) ∨ (65 ≤ c ∧ c ≤ 90) ∨ (97 ≤ c ∧ c ≤ 122)
    ∨ c = 45 ∨ c = 46 ∨ c = 95 ∨ c = 126)

/-- The upper-case hexadecimal digit of a value below sixteen. -/
def upperhex (n : Nat) : Nat := if n < 10 then 48 + n else 55 + n

/-- The percent-encoding of a string, as the specification names it: every
byte that is not an unreserved character is written `%XX`. -/
def percentEncode : GoString → GoString
  | [] => []
  | c :: rest =>
      if unreserved c then c :: percentEncode rest
      else 37 :: upperhex (c / 16) :: upperhex (c % 16) :: percentEncode rest

/-- Go `decodeEncodedHeader`; `none` is the error of either decoding step. -/
def decodeEncodedHeader (value : GoString) : Option GoString :=
  match DecodeString value with
  | none => none
  | some decoded => QueryUnescape decoded

/-- Go `getHeaderValueSafe`. -/
def getHeaderValueSafe (r : Request) (key : GoString) : GoString :=
  let value := r.Header.Get key
  if value ≠ [] then value
  else
    let encodedValue := r.Header.Get (key ++ goStr "-Encoded")
    if encodedValue ≠ [] then
      match decodeEncodedHeader encodedValue with
      | some decoded => decoded
      | none => []
    else []

/-! ## Responses and the two gates of `middleware.go` -/

/-- Go `http.Header.Set`, on the values under a canonical name. -/
def Header.setValues : Header → GoString → List GoString → Header
  | [], key, vs => [(key, vs)]
  | (k, vs') :: rest, key, vs =>
      if k = key then (key, vs) :: rest else (k, vs') :: Header.setValues rest key vs

/-- Go `http.Header.Set`: the single value `value` replaces all values under
the canonical form of the name. -/
def Header.Set (h : Header) (key value : GoString) : Header :=
  h.setValues (CanonicalMIMEHeaderKey key) [value]

/-- Go `http.Header.Del`, on a canonical name. -/
def Header.delValues : Header → GoString → Header
  | [], _ => []
  | (k, vs) :: rest, key =>
      if k = key then Header.delValues rest key else (k, vs) :: Header.delValues rest key

/-- Go `http.Header.Del`. -/
def Header.Del (h : Header) (key : GoString) : Header :=
  h.delValues (CanonicalMIMEHeaderKey key)

/-- The state of an `http.ResponseWriter`: the response headers, the status
code once it is written, and the body written so far. -/
structure Response where
  Header : Header
  status : Option Nat
  body : GoString

/-- Go `w.WriteHeader(code)`: the first status code written stays. -/
def Response.WriteHeader (w : Response) (code : Nat) : Response :=
  match w.status with
  | none => { w with status := some code }
  | some _ => w

/-- Go `w.Write(data)`: a write before any status code writes the status 200. -/
def Response.Write (w : Response) (data : GoString) : Response :=
  { (w.WriteHeader 200) with body := w.body ++ data }

/-- Go `w.Header().Set(key, value)`. -/
def Response.SetHeader (w : Response) (key value : GoString) : Response :=
  { w with Header := w.Header.Set key value }

/-- Go `http.Error`: a plain-text reply with the status `code` and the line
`error` as body. -/
def httpError (w : Response) (error : GoString) (code : Nat) : Response :=
  let w := { w with Header := w.Header.Del (goStr "Content-Length") }
  let w := w.SetHeader (goStr "Content-Type") (goStr "text/plain; charset=utf-8")
  let w := w.SetHeader (goStr "X-Content-Type-Options") (goStr "nosniff")
  (w.WriteHeader code).Write (error ++ [10])

/-- Go `http.Handler`, by its method `ServeHTTP(w, r)`. -/
abbrev Handler := Response → Request → Response

/-- Go `strings.TrimPrefix`. -/
def TrimPrefix (s pre : GoString) : GoString :=
  if pre.isPrefixOf s then s.drop pre.length else s

/-- Go `getAuthHeaderSafe` of `middleware.go`. -/
def getAuthHeaderSafe (r : Request) : GoString :=
  let authHeader := r.Header.Get (goStr "Authorization")
  if authHeader ≠ [] then authHeader
  else
    let encodedAuth := r.Header.Get (goStr "Authorization-Encoded")
    if encodedAuth ≠ [] then
      match DecodeString encodedAuth with
      | some decoded => decoded
      | none => []
    else []

/-- The list `allowedOrigins`, which `CORSMiddleware` writes out once for the
preflight and once more, with the same entries, for the other requests. -/
def allowedOrigins : List GoString :=
  [goStr "http://localhost:5174", goStr "http://localhost:3000", goStr "http://localhost:8080",
   goStr "http://127.0.0.1:5174", goStr "http://127.0.0.1:3000", goStr "http://localhost:5173",
   goStr "http://127.0.0.1:8080"]

/-- The loop of `CORSMiddleware` that computes `isAllowed`. -/
def isAllowedOrigin (origin : GoString) : Bool :=
  allowedOrigins.any fun allowedOrigin => decide (origin = allowedOrigin)

/-- The value of `Access-Control-Allow-Headers` that `CORSMiddleware` sends. -/
def allowedRequestHeaders : GoString :=
  goStr "Content-Type, Authorization, X-User-Info, X-User-Info-Encoded, X-User-Info-Encoded-Type, X-Requested-With"

/-- Go `CORSMiddleware`. -/
def CORSMiddleware (next : Handler) : Handler := fun w r =>
  let origin := r.Header.Get (goStr "Origin")
  if r.Method = goStr "OPTIONS" then
    if isAllowedOrigin origin || decide (origin = []) then
      let w := w.SetHeader (goStr "Access-Control-Allow-Origin") origin
      let w := w.SetHeader (goStr "Access-Control-Allow-Methods")
        (goStr "GET, POST, PUT, DELETE, OPTIONS, PATCH")
      let w := w.SetHeader (goStr "Access-Control-Allow-Headers") allowedRequestHeaders
      let w := w.SetHeader (goStr "Access-Control-Allow-Credentials") (goStr "true")
      let w := w.SetHeader (goStr "Access-Control-Max-Age") (goStr "86400")
      w.WriteHeader 200
    else w.WriteHeader 403
  else
    let w :=
      if isAllowedOrigin origin || decide (origin = []) then
        let w :=
          if origin ≠ [] then w.SetHeader (goStr "Access-Control-Allow-Origin") origin
          else w.SetHeader (goStr "Access-Control-Allow-Origin") (goStr "*")
        w.SetHeader (goStr "Access-Control-Allow-Credentials") (goStr "true")
      else w
    next w r

/-- The field of the session claims of the provider that the program reads. -/
structure SessionClaims where
  Subject : GoString

/-- The identity provider as `ClerkAuthMiddleware` uses it: `VerifyToken` is
`client.VerifyToken(token, clerk.WithLeeway(30*time.Second))`, a failure
being given by the text of its error. -/
structure Client where
  VerifyToken : GoString → Except GoString SessionClaims

/-- Go `ClerkAuthMiddleware`. -/
def ClerkAuthMiddleware (next : Handler) (client : Client) : Handler := fun w r =>
  let authHeader := getAuthHeaderSafe r
  if authHeader = [] then
    httpError w (goStr "Missing Authorization header") 401
  else
    let token := TrimPrefix authHeader (goStr "Bearer ")
    match client.VerifyToken token with
    | .error err =>
        if Contains err (goStr "future") || Contains err (goStr "expired") then
          httpError w (goStr "Token time validation failed: " ++ err) 401
        else
          httpError w (goStr "Invalid token: " ++ err) 401
    | .ok claims =>
        next w { r with Header := r.Header.Set (goStr "X-Clerk-User-Id") claims.Subject }

/-! ## The client-identity extractor -/

/-- The errors that `extractFrontendUserInfo` returns, one for each
`fmt.Errorf` of the function. -/
inductive ExtractError where
  | tooLarge (bytes : Nat)
  | base64
  | unescape (encodingType : GoString)
  | parse
  | missingFields
  deriving DecidableEq

/-- Go `sanitizeUserInfo`. -/
def sanitizeUserInfo (unicodeLower : GoString → GoString) (userInfo : FrontendUserInfo) :
    FrontendUserInfo :=
  let userInfo :=
    if userInfo.UserId.length > 255 then { userInfo with UserId := userInfo.UserId.take 255 }
    else userInfo
  let userInfo :=
    if userInfo.Username.length > 100 then
      { userInfo with Username := userInfo.Username.take 100 }
    else userInfo
  let userInfo :=
    if userInfo.Email.length > 255 then { userInfo with Email := userInfo.Email.take 255 }
    else userInfo
  let userInfo :=
    if userInfo.Name.length > 200 then { userInfo with Name := userInfo.Name.take 200 }
    else userInfo
  let userInfo :=
    if userInfo.Avatar.length > 500 then { userInfo with Avatar := userInfo.Avatar.take 500 }
    else userInfo
  let userInfo :=
    { userInfo with Preferences := sanitizeMap unicodeLower userInfo.Preferences }
  { userInfo with Metadata := sanitizeMap unicodeLower userInfo.Metadata }

/-- The variable `encodingMarker` of `extractFrontendUserInfo`: the header
`X-User-Info-Encoded-Type`, and the header `X-User-Info-Encoded` in its place
when it is empty. -/
def encodingMarker (r : Request) : GoString :=
  if r.Header.Get (goStr "X-User-Info-Encoded-Type") = [] then
    r.Header.Get (goStr "X-User-Info-Encoded")
  else r.Header.Get (goStr "X-User-Info-Encoded-Type")

/-- The first part of `extractFrontendUserInfo`: the payload string
`userInfoStr` and its `encodingType`, or `none` when the request carries no
user information. -/
def locateUserInfo (r : Request) : Option (GoString × GoString) :=
  let encodedUserInfo := r.Header.Get (goStr "X-User-Info-Encoded")
  let userInfoHeader := r.Header.Get (goStr "X-User-Info")
  if encodedUserInfo ≠ [] then some (encodedUserInfo, encodingMarker r)
  else if userInfoHeader ≠ [] then some (userInfoHeader, goStr "raw")
  else none

/-- The `switch` of `extractFrontendUserInfo` on the lower-cased encoding type. -/
def decodeUserInfo (unicodeLower : GoString → GoString) (encodingType userInfoStr : GoString) :
    Except ExtractError GoString :=
  if ToLower unicodeLower encodingType = goStr "base64" then
    match DecodeString userInfoStr with
    | some decodedBytes => .ok decodedBytes
    | none => .error .base64
  else if ToLower unicodeLower encodingType = goStr "raw"
      ∨ ToLower unicodeLower encodingType = [] then
    .ok userInfoStr
  else
    match QueryUnescape userInfoStr with
    | some decodedStr => .ok decodedStr
    | none => .error (.unescape encodingType)

/-- The last part of `extractFrontendUserInfo`: parse the decoded text, check
the identification fields, clean the record.  `jsonUnmarshal` is
`json.Unmarshal` into a zero `FrontendUserInfo`, `none` being its error. -/
def parseUserInfo (unicodeLower : GoString → GoString)
    (jsonUnmarshal : GoString → Option FrontendUserInfo) (decodedStr : GoString) :
    Option FrontendUserInfo × Option ExtractError :=
  match jsonUnmarshal decodedStr with
  | none => (none, some .parse)
  | some userInfo =>
      if userInfo.UserId = [] ∧ userInfo.Username = [] ∧ userInfo.Email = [] then
        (none, some .missingFields)
      else (some (sanitizeUserInfo unicodeLower userInfo), none)

/-- Go `extractFrontendUserInfo`: the pair of the payload and the error. -/
def extractFrontendUserInfo (unicodeLower : GoString → GoString)
    (jsonUnmarshal : GoString → Option FrontendUserInfo) (r : Request) :
    Option FrontendUserInfo × Option ExtractError :=
  match locateUserInfo r with
  | none => (none, none)
  | some (userInfoStr, encodingType) =>
      if userInfoStr.length > 10240 then (none, some (.tooLarge userInfoStr.length))
      else
        match decodeUserInfo unicodeLower encodingType userInfoStr with
        | .error err => (none, some err)
        | .ok decodedStr => parseUserInfo unicodeLower jsonUnmarshal decodedStr

/-! ## Sample inputs -/

/-- An identity record without handle, names, avatar and emails. -/
def bareUser : User :=
  { ID := goStr "user_1", Username := none, FirstName := none, LastName := none,
    ImageURL := none, PrimaryEmailAddressID := none, EmailAddresses := [],
    PhoneNumbers := [], Web3Wallets := [], ExternalAccounts := [],
    PublicMetadata := .null, PrivateMetadata := .null, UnsafeMetadata := .null,
    CreatedAt := 0, UpdatedAt := 0, LastSignInAt := none,
    Banned := false, Locked := false, TwoFactorEnabled := false }

/-- A client payload with the handle `ada` and the display name `Ada Lovelace`. -/
def adaPayload : FrontendUserInfo :=
  { UserId := [], Username := goStr "ada", Email := [], Name := goStr "Ada Lovelace",
    Avatar := [], Preferences := none, Metadata := none }

/-- A client payload whose display name has three tokens, with a leading
blank, a double blank, a tab and a trailing blank around them. -/
def threeNamePayload : FrontendUserInfo :=
  { adaPayload with Name := goStr " Ada  Byron\tKing " }

/-- An identity record with the first name `Grace` and the last name `Hopper`. -/
def graceUser : User :=
  { bareUser with FirstName := some (goStr "Grace"), LastName := some (goStr "Hopper") }

/-- A client payload whose display name is the single token `Ada`. -/
def singleNamePayload : FrontendUserInfo :=
  { adaPayload with Name := goStr "Ada" }

/-- A provider that accepts the token `good` for the subject `user_1`, reports
the token `old` as expired and rejects every other token. -/
def sampleClient : Client :=
  ⟨fun token =>
    if token = goStr "good" then .ok ⟨goStr "user_1"⟩
    else if token = goStr "old" then .error (goStr "token is expired")
    else .error (goStr "bad signature")⟩

/-- A handler that writes the subject identifier it finds in the request. -/
def echoSubject : Handler := fun w r => w.Write (r.Header.Get (goStr "X-Clerk-User-Id"))

/-- A response to which nothing has been written. -/
def freshResponse : Response := ⟨[], none, []⟩

/-- A request with the given method and headers. -/
def sampleRequest (method : String) (headers : List (String × String)) : Request :=
  ⟨goStr method, headers.map fun kv => (goStr kv.1, [goStr kv.2])⟩

/-- A stand-in for `json.Unmarshal` that knows two documents: one with a
display name only, and one with the handle `ada`. -/
def sampleUnmarshal : GoString → Option FrontendUserInfo := fun text =>
  if text = goStr "\x7b\"name\":\"Ada\"\x7d" then
    some { UserId := [], Username := [], Email := [], Name := goStr "Ada", Avatar := [],
           Preferences := none, Metadata := none }
  else if text = goStr "\x7b\"username\":\"ada\"\x7d" then
    some { UserId := [], Username := goStr "ada", Email := [], Name := [], Avatar := [],
           Preferences := none, Metadata := none }
  else none

/-- A request whose raw `X-User-Info` header consists of `n` letters `a`. -/
def paddedRequest (n : Nat) : Request :=
  ⟨goStr "GET", [(goStr "X-User-Info", [List.replicate n 97])]⟩

/-! ## Theorems: the sanitizer -/

theorem truncated_length : truncated.length = 14 := by decide

theorem mapIndex_sanitizeEntries (unicodeLower : GoString → GoString) (k : GoString) :
    ∀ m : List (GoString × Value),
      mapIndex (sanitizeEntries unicodeLower m) k =
        (mapIndex m k).map fun v =>
          if isSensitive unicodeLower k then Value.str redacted
          else sanitizeValue unicodeLower v
  | [] => by simp [sanitizeEntries, mapIndex]
  | (k', v) :: rest => by
      by_cases h : k' = k
      · subst h
        simp [sanitizeEntries, mapIndex]
      · simp [sanitizeEntries, mapIndex, h, mapIndex_sanitizeEntries unicodeLower k rest]

theorem take_truncated_idem (s : GoString) (h : 1000 < s.length) :
    (s.take 1000 ++ truncated).take 1000 = s.take 1000 := by
  have hlen : (s.take 1000).length = 1000 := by
    simp only [List.length_take]; omega
  rw [List.take_append_of_le_length (by omega), List.take_take]
  simp

mutual
theorem sanitizeValue_idem (unicodeLower : GoString → GoString) :
    ∀ v : Value,
      sanitizeValue unicodeLower (sanitizeValue unicodeLower v) = sanitizeValue unicodeLower v
  | .map m => by
      simp only [sanitizeValue, sanitizeEntries_idem unicodeLower m]
  | .str s => by
      by_cases h : s.length > 1000
      · have h2 : (s.take 1000 ++ truncated).length > 1000 := by
          simp only [List.length_append, List.length_take, truncated_length]; omega
        simp only [sanitizeValue, h, if_true, h2, take_truncated_idem s h]
      · simp only [sanitizeValue, h, if_false]
  | .null => by simp only [sanitizeValue]
  | .bool _ => by simp only [sanitizeValue]
  | .num _ => by simp only [sanitizeValue]
  | .seq _ => by simp only [sanitizeValue]
theorem sanitizeEntries_idem (unicodeLower : GoString → GoString) :
    ∀ m : List (GoString × Value),
      sanitizeEntries unicodeLower (sanitizeEntries unicodeLower m) =
        sanitizeEntries unicodeLower m
  | [] => by simp only [sanitizeEntries]
  | (k, v) :: rest => by
      by_cases h : isSensitive unicodeLower k = true
      · simp only [sanitizeEntries, h, if_true, sanitizeEntries_idem unicodeLower rest]
      · simp only [sanitizeEntries, h, Bool.false_eq_true, if_false,
          sanitizeValue_idem unicodeLower v, sanitizeEntries_idem unicodeLower rest]
end

/-- C1. Redaction: in the result of `sanitizeMap` on a non-nil map, a key of
the map whose lower-cased name contains one of `password`, `token`, `secret`,
`key`, `auth`, `credential` holds the marker `[REDACTED]`, whatever value of
whatever type it held before. -/
theorem sanitizeMap_redacts_sensitive_key (unicodeLower : GoString → GoString)
    (m : List (GoString × Value)) (k : GoString) (v : Value)
    (hk : mapIndex m k = some v)
    (hs : ∃ t ∈ [goStr "password", goStr "token", goStr "secret", goStr "key",
        goStr "auth", goStr "credential"], Contains (ToLower unicodeLower k) t = true) :
    ∃ out, sanitizeMap unicodeLower (some m) = some out
      ∧ mapIndex out k = some (Value.str (goStr "[REDACTED]")) := by
  have hsens : isSensitive unicodeLower k = true := by
    obtain ⟨t, ht, hc⟩ := hs
    exact List.any_eq_true.mpr ⟨t, ht, hc⟩
  refine ⟨sanitizeEntries unicodeLower m, rfl, ?_⟩
  rw [mapIndex_sanitizeEntries, hk]
  simp [hsens, redacted]

theorem sanitizeMap_redacts_sensitive_key_witness :
    ∃ out, sanitizeMap id (some [(goStr "name", Value.str (goStr "Ada")),
        (goStr "apiKeys", Value.seq [Value.num 7, Value.null])]) = some out
      ∧ mapIndex out (goStr "apiKeys") = some (Value.str (goStr "[REDACTED]")) :=
  sanitizeMap_redacts_sensitive_key id _ (goStr "apiKeys") (Value.seq [Value.num 7, Value.null])
    rfl ⟨goStr "key", by decide, by decide⟩

/-- C2. A map that sits inside a sequence is not sanitized: the preferences
`{"accounts": [{"password": "hunter2"}]}` come back from `sanitizeMap`
unchanged, so the sensitive key `password` keeps its original value. -/
theorem sanitizeMap_leaves_map_in_sequence (unicodeLower : GoString → GoString) :
    isSensitive unicodeLower (goStr "password") = true
      ∧ sanitizeMap unicodeLower
          (some [(goStr "accounts",
            Value.seq [Value.map [(goStr "password", Value.str (goStr "hunter2"))]])])
        = some [(goStr "accounts",
            Value.seq [Value.map [(goStr "password", Value.str (goStr "hunter2"))]])] :=
  ⟨rfl, rfl⟩

/-- C3, as the specification states it, fails: a string of 501 characters that
each take two bytes is not longer than 1000 characters, yet `sanitizeMap`
replaces it by its first 1000 bytes and the truncation marker, which differs
from the string. -/
theorem sanitizeMap_truncation_by_characters_counterexample :
    (String.mk (List.replicate 501 'é')).length ≤ 1000
      ∧ isSensitive id (goStr "bio") = false
      ∧ sanitizeMap id (some [(goStr "bio",
            Value.str (goStr (String.mk (List.replicate 501 'é'))))])
          = some [(goStr "bio",
              Value.str (goStr (String.mk (List.replicate 500 'é')) ++ goStr "...[TRUNCATED]"))]
      ∧ goStr (String.mk (List.replicate 500 'é')) ++ goStr "...[TRUNCATED]"
          ≠ goStr (String.mk (List.replicate 501 'é')) := by
  have hlen : (goStr (String.mk (List.replicate 501 'é'))).length > 1000 := by decide!
  have htake : (goStr (String.mk (List.replicate 501 'é'))).take 1000
      = goStr (String.mk (List.replicate 500 'é')) := by decide!
  have hkey : isSensitive id (goStr "bio") = false := by decide
  refine ⟨by decide!, hkey, ?_, by decide!⟩
  simp only [sanitizeMap, sanitizeEntries, sanitizeValue, hkey, hlen, htake, truncated,
    if_true, Bool.false_eq_true, if_false]

/-- C3, amended: under a key that is not sensitive, a string value of more than
1000 bytes becomes its first 1000 bytes followed by `...[TRUNCATED]`, and a
string value of at most 1000 bytes is unchanged. -/
theorem sanitizeMap_truncates_by_bytes (unicodeLower : GoString → GoString)
    (m : List (GoString × Value)) (k s : GoString)
    (hk : mapIndex m k = some (Value.str s))
    (hs : isSensitive unicodeLower k = false) :
    ∃ out, sanitizeMap unicodeLower (some m) = some out
      ∧ mapIndex out k = some (Value.str
          (if s.length > 1000 then s.take 1000 ++ goStr "...[TRUNCATED]" else s)) := by
  refine ⟨sanitizeEntries unicodeLower m, rfl, ?_⟩
  rw [mapIndex_sanitizeEntries, hk]
  by_cases h : s.length > 1000 <;> simp [hs, sanitizeValue, h, truncated]

theorem sanitizeMap_truncates_by_bytes_witness :
    ∃ out, sanitizeMap id (some [(goStr "bio", Value.str (goStr "mathematician"))]) = some out
      ∧ mapIndex out (goStr "bio") = some (Value.str
          (if (goStr "mathematician").length > 1000
            then (goStr "mathematician").take 1000 ++ goStr "...[TRUNCATED]"
            else goStr "mathematician")) :=
  sanitizeMap_truncates_by_bytes id _ (goStr "bio") (goStr "mathematician") rfl (by decide)

/-- C4. Idempotence: `sanitizeMap (sanitizeMap m) = sanitizeMap m` for every
map `m`, the nil map included. -/
theorem sanitizeMap_idempotent (unicodeLower : GoString → GoString)
    (m : Option (List (GoString × Value))) :
    sanitizeMap unicodeLower (sanitizeMap unicodeLower m) = sanitizeMap unicodeLower m := by
  cases m with
  | none => rfl
  | some data => simp only [sanitizeMap, sanitizeEntries_idem unicodeLower data]

/-! ## Theorems: the profile composer -/

theorem Profile.get_set_eq (k : GoString) (d : Dyn) :
    ∀ p : Profile, (p.set k d).get k = d
  | [] => by simp [Profile.set, Profile.get]
  | (k', d') :: rest => by
      by_cases h : k' = k
      · simp [Profile.set, Profile.get, h]
      · simp [Profile.set, Profile.get, h, Profile.get_set_eq k d rest]

theorem Profile.get_set_ne (k k2 : GoString) (d : Dyn) (hne : k ≠ k2) :
    ∀ p : Profile, (p.set k d).get k2 = p.get k2
  | [] => by simp [Profile.set, Profile.get, hne]
  | (k', d') :: rest => by
      by_cases h : k' = k
      · subst h
        simp [Profile.set, Profile.get, hne]
      · by_cases h2 : k' = k2
        · subst h2
          simp [Profile.set, Profile.get, h]
        · simp [Profile.set, Profile.get, h, h2, Profile.get_set_ne k k2 d hne rest]

theorem addCollections_get (user : User) (p : Profile) (k : GoString)
    (h1 : goStr "primaryPhone" ≠ k) (h2 : goStr "phones" ≠ k) (h3 : goStr "web3Wallets" ≠ k) :
    (addCollections user p).get k = p.get k := by
  unfold addCollections
  cases user.PhoneNumbers <;> by_cases hw : user.Web3Wallets.length > 0 <;>
    simp [hw, Profile.get_set_ne _ _ _ h1, Profile.get_set_ne _ _ _ h2,
      Profile.get_set_ne _ _ _ h3]

theorem fillUsername_of_typed (info : FrontendUserInfo) (p : Profile)
    (h : (p.get (goStr "username")).isNil = false) : fillUsername info p = p := by
  simp [fillUsername, h]

theorem fillImageUrl_of_typed (info : FrontendUserInfo) (p : Profile)
    (h : (p.get (goStr "imageUrl")).isNil = false) : fillImageUrl info p = p := by
  simp [fillImageUrl, h]

theorem fillUsername_get (info : FrontendUserInfo) (p : Profile) (k : GoString)
    (h : goStr "username" ≠ k) : (fillUsername info p).get k = p.get k := by
  unfold fillUsername
  split
  · exact Profile.get_set_ne _ _ _ h p
  · rfl

theorem fillImageUrl_get (info : FrontendUserInfo) (p : Profile) (k : GoString)
    (h : goStr "imageUrl" ≠ k) : (fillImageUrl info p).get k = p.get k := by
  unfold fillImageUrl
  split
  · exact Profile.get_set_ne _ _ _ h p
  · rfl

theorem fillNames_get (info : FrontendUserInfo) (p : Profile) (k : GoString)
    (h1 : goStr "firstName" ≠ k) (h2 : goStr "lastName" ≠ k) :
    (fillNames info p).get k = p.get k := by
  unfold fillNames
  simp only []
  repeat' split
  all_goals
    simp only [Profile.get_set_ne _ _ _ h1, Profile.get_set_ne _ _ _ h2]

theorem fillNames_kept (info : FrontendUserInfo) (p : Profile) (first : GoString)
    (hf : p.get (goStr "firstName") = Dyn.string first) (hne : first ≠ []) :
    fillNames info p = p := by
  simp [fillNames, hf, hne, Dyn.isNil, Dyn.eqString]

theorem Fields_nil : Fields [] = [] := rfl

theorem fillNames_split (info : FrontendUserInfo) (p : Profile)
    (t1 : GoString) (rest : List GoString)
    (hf : p.get (goStr "firstName") = Dyn.string [])
    (hfields : Fields info.Name = t1 :: rest) :
    (fillNames info p).get (goStr "firstName") = Dyn.string t1
      ∧ (fillNames info p).get (goStr "lastName")
          = if rest = [] then p.get (goStr "lastName")
            else Dyn.string (Join rest (goStr " ")) := by
  have hname : info.Name ≠ [] := by
    intro h
    rw [h, Fields_nil] at hfields
    cases hfields
  have n7 : goStr "firstName" ≠ goStr "lastName" := by decide
  have n8 : goStr "lastName" ≠ goStr "firstName" := by decide
  unfold fillNames
  cases rest with
  | nil =>
    simp [Profile.get_set_ne _ _ _ n7, Profile.get_set_eq, hf, hname, hfields, Dyn.eqString]
  | cons t2 more =>
    simp [Profile.get_set_ne _ _ _ n7, Profile.get_set_ne _ _ _ n8,
      Profile.get_set_eq, hf, hname, hfields, Dyn.eqString]

theorem addFrontendInfo_get (info : FrontendUserInfo) (p : Profile) (k : GoString)
    (h1 : goStr "frontendInfo" ≠ k) (h2 : goStr "username" ≠ k) (h3 : goStr "firstName" ≠ k)
    (h4 : goStr "lastName" ≠ k) (h5 : goStr "imageUrl" ≠ k) :
    (addFrontendInfo info p).get k = p.get k := by
  unfold addFrontendInfo
  simp only []
  rw [fillImageUrl_get _ _ _ h5, fillNames_get _ _ _ h3 h4, fillUsername_get _ _ _ h2,
    Profile.get_set_ne _ _ _ h1]

/-- When the handle and the avatar of a profile hold typed values, attaching a
client payload only changes the names. -/
theorem addFrontendInfo_of_typed (info : FrontendUserInfo) (p : Profile)
    (hu : (p.get (goStr "username")).isNil = false)
    (hi : (p.get (goStr "imageUrl")).isNil = false) :
    addFrontendInfo info p
      = fillNames info (p.set (goStr "frontendInfo") (Dyn.frontendInfo info)) := by
  have hu2 : (((p.set (goStr "frontendInfo") (Dyn.frontendInfo info)).get
      (goStr "username"))).isNil = false := by
    rw [Profile.get_set_ne _ _ _ (by decide)]
    exact hu
  have hi2 : ((fillNames info (p.set (goStr "frontendInfo") (Dyn.frontendInfo info))).get
      (goStr "imageUrl")).isNil = false := by
    rw [fillNames_get _ _ _ (by decide) (by decide), Profile.get_set_ne _ _ _ (by decide)]
    exact hi
  unfold addFrontendInfo
  simp only []
  rw [fillUsername_of_typed _ _ hu2, fillImageUrl_of_typed _ _ hi2]

theorem baseProfile_username_typed (user : User) :
    ((addCollections user (baseProfile user)).get (goStr "username")).isNil = false := by
  rw [addCollections_get user _ _ (by decide) (by decide) (by decide)]
  rfl

theorem baseProfile_imageUrl_typed (user : User) :
    ((addCollections user (baseProfile user)).get (goStr "imageUrl")).isNil = false := by
  rw [addCollections_get user _ _ (by decide) (by decide) (by decide)]
  rfl

theorem baseProfile_firstName (user : User) :
    (addCollections user (baseProfile user)).get (goStr "firstName")
      = Dyn.string (getStringValue user.FirstName) := by
  rw [addCollections_get user _ _ (by decide) (by decide) (by decide)]
  rfl

theorem baseProfile_lastName (user : User) :
    (addCollections user (baseProfile user)).get (goStr "lastName")
      = Dyn.string (getStringValue user.LastName) := by
  rw [addCollections_get user _ _ (by decide) (by decide) (by decide)]
  rfl

/-- With a client payload the composed profile is the profile of the record
with the payload attached and the names filled: the handle and the avatar of
the record are `*string` values, which never compare equal to `nil`. -/
theorem buildDetailedUserProfile_some (user : User) (info : FrontendUserInfo) :
    buildDetailedUserProfile user (some info)
      = fillNames info ((addCollections user (baseProfile user)).set (goStr "frontendInfo")
          (Dyn.frontendInfo info)) :=
  addFrontendInfo_of_typed info _ (baseProfile_username_typed user)
    (baseProfile_imageUrl_typed user)

/-- The handle and the avatar of the composed profile are the `*string`
values of the record, with or without a client payload. -/
theorem buildDetailedUserProfile_username_imageUrl (user : User)
    (info : Option FrontendUserInfo) :
    (buildDetailedUserProfile user info).get (goStr "username") = Dyn.stringPtr user.Username
      ∧ (buildDetailedUserProfile user info).get (goStr "imageUrl")
          = Dyn.stringPtr user.ImageURL := by
  have hu : (addCollections user (baseProfile user)).get (goStr "username")
      = Dyn.stringPtr user.Username := by
    rw [addCollections_get user _ _ (by decide) (by decide) (by decide)]
    rfl
  have hi : (addCollections user (baseProfile user)).get (goStr "imageUrl")
      = Dyn.stringPtr user.ImageURL := by
    rw [addCollections_get user _ _ (by decide) (by decide) (by decide)]
    rfl
  cases info with
  | none => exact ⟨hu, hi⟩
  | some fi =>
    rw [buildDetailedUserProfile_some, fillNames_get _ _ _ (by decide) (by decide),
      fillNames_get _ _ _ (by decide) (by decide), Profile.get_set_ne _ _ _ (by decide),
      Profile.get_set_ne _ _ _ (by decide)]
    exact ⟨hu, hi⟩

/-- A first name of the record that is not empty is kept, and then the last
name of the record is kept with it. -/
theorem buildDetailedUserProfile_names_kept (user : User) (info : Option FrontendUserInfo)
    (hne : getStringValue user.FirstName ≠ []) :
    (buildDetailedUserProfile user info).get (goStr "firstName")
        = Dyn.string (getStringValue user.FirstName)
      ∧ (buildDetailedUserProfile user info).get (goStr "lastName")
        = Dyn.string (getStringValue user.LastName) := by
  cases info with
  | none => exact ⟨baseProfile_firstName user, baseProfile_lastName user⟩
  | some fi =>
    have hf : ((addCollections user (baseProfile user)).set (goStr "frontendInfo")
        (Dyn.frontendInfo fi)).get (goStr "firstName")
          = Dyn.string (getStringValue user.FirstName) := by
      rw [Profile.get_set_ne _ _ _ (by decide)]
      exact baseProfile_firstName user
    rw [buildDetailedUserProfile_some, fillNames_kept fi _ _ hf hne,
      Profile.get_set_ne _ _ _ (by decide), Profile.get_set_ne _ _ _ (by decide)]
    exact ⟨baseProfile_firstName user, baseProfile_lastName user⟩

/-- C5. The handle is not taken from the client payload: for the record
without a handle, and for the record whose handle is the empty string, each
composed with a payload of handle `ada`, the profile keeps the `*string` of
the record under `username` and not the string `ada`. -/
theorem buildDetailedUserProfile_handle_not_backfilled :
    (buildDetailedUserProfile bareUser (some adaPayload)).get (goStr "username")
        = Dyn.stringPtr none
      ∧ (buildDetailedUserProfile { bareUser with Username := some [] }
            (some adaPayload)).get (goStr "username") = Dyn.stringPtr (some [])
      ∧ Dyn.stringPtr none ≠ Dyn.string (goStr "ada")
      ∧ Dyn.stringPtr (some []) ≠ Dyn.string (goStr "ada") :=
  ⟨rfl, rfl, nofun, nofun⟩

/-- C6. A client display name overrides a last name of the record: the record
with no first name and the last name `Smith`, composed with a payload of
display name `Ada Lovelace`, has the last name `Lovelace` in the profile. -/
theorem buildDetailedUserProfile_overrides_lastName :
    (buildDetailedUserProfile { bareUser with LastName := some (goStr "Smith") }
        (some adaPayload)).get (goStr "lastName") = Dyn.string (goStr "Lovelace")
      ∧ goStr "Lovelace" ≠ goStr "Smith" :=
  ⟨rfl, by decide⟩

theorem Join_eq_intercalate (sep : GoString) :
    ∀ elems : List GoString, Join elems sep = List.intercalate sep elems
  | [] => rfl
  | [a] => by simp [Join, List.intercalate]
  | a :: b :: rest => by
      have ih := Join_eq_intercalate sep (b :: rest)
      simp only [List.intercalate] at ih
      simp [Join, List.intercalate, List.intersperse, ih]

theorem getStringValue_eq_getD (s : Option GoString) : getStringValue s = s.getD [] := by
  cases s <;> rfl

/-- C7. Name splitting: when the record has no first name and no last name
(each absent or empty) and the display name of the client payload splits on
white space into `t1 :: rest`, the profile has `firstName = t1` and
`lastName` the tokens of `rest` with one space between consecutive tokens,
which is the empty string when `rest` is empty, the token itself when `rest`
has one token, and `t2 ++ " " ++ t3` when it has two. -/
theorem buildDetailedUserProfile_splits_name (user : User) (info : FrontendUserInfo)
    (t1 : GoString) (rest : List GoString)
    (hfirst : user.FirstName = none ∨ user.FirstName = some [])
    (hlast : user.LastName = none ∨ user.LastName = some [])
    (hfields : Fields info.Name = t1 :: rest) :
    (buildDetailedUserProfile user (some info)).get (goStr "firstName") = Dyn.string t1
      ∧ (buildDetailedUserProfile user (some info)).get (goStr "lastName")
          = Dyn.string (List.intercalate [32] rest)
      ∧ (rest = [] → (buildDetailedUserProfile user (some info)).get (goStr "lastName")
          = Dyn.string [])
      ∧ (∀ t2, rest = [t2] →
          (buildDetailedUserProfile user (some info)).get (goStr "lastName") = Dyn.string t2)
      ∧ (∀ t2 t3, rest = [t2, t3] →
          (buildDetailedUserProfile user (some info)).get (goStr "lastName")
            = Dyn.string (t2 ++ [32] ++ t3)) := by
  have hfirst2 : getStringValue user.FirstName = [] := by
    rcases hfirst with h | h <;> rw [h] <;> rfl
  have hlast2 : getStringValue user.LastName = [] := by
    rcases hlast with h | h <;> rw [h] <;> rfl
  have hf : ((addCollections user (baseProfile user)).set (goStr "frontendInfo")
      (Dyn.frontendInfo info)).get (goStr "firstName") = Dyn.string [] := by
    rw [Profile.get_set_ne _ _ _ (by decide), baseProfile_firstName, hfirst2]
  have hl : ((addCollections user (baseProfile user)).set (goStr "frontendInfo")
      (Dyn.frontendInfo info)).get (goStr "lastName") = Dyn.string [] := by
    rw [Profile.get_set_ne _ _ _ (by decide), baseProfile_lastName, hlast2]
  have key := fillNames_split info _ t1 rest hf hfields
  have hspace : goStr " " = [32] := by decide
  have hlastName : (buildDetailedUserProfile user (some info)).get (goStr "lastName")
      = Dyn.string (List.intercalate [32] rest) := by
    rw [buildDetailedUserProfile_some, key.2, hl, Join_eq_intercalate, hspace]
    cases rest with
    | nil => simp [List.intercalate]
    | cons t2 more => simp
  refine ⟨?_, hlastName, ?_, ?_, ?_⟩
  · rw [buildDetailedUserProfile_some]
    exact key.1
  · intro hrest
    rw [hlastName, hrest]
    rfl
  · intro t2 hrest
    rw [hlastName, hrest]
    simp [List.intercalate]
  · intro t2 t3 hrest
    rw [hlastName, hrest]
    simp [List.intercalate, List.intersperse]

theorem buildDetailedUserProfile_splits_name_witness :
    ((buildDetailedUserProfile bareUser (some adaPayload)).get (goStr "firstName")
        = Dyn.string (goStr "Ada")
      ∧ (buildDetailedUserProfile bareUser (some adaPayload)).get (goStr "lastName")
        = Dyn.string (goStr "Lovelace"))
    ∧ ((buildDetailedUserProfile bareUser (some singleNamePayload)).get (goStr "firstName")
        = Dyn.string (goStr "Ada")
      ∧ (buildDetailedUserProfile bareUser (some singleNamePayload)).get (goStr "lastName")
        = Dyn.string [])
    ∧ ((buildDetailedUserProfile { bareUser with FirstName := some [], LastName := some [] }
          (some threeNamePayload)).get (goStr "firstName") = Dyn.string (goStr "Ada")
      ∧ (buildDetailedUserProfile { bareUser with FirstName := some [], LastName := some [] }
          (some threeNamePayload)).get (goStr "lastName") = Dyn.string (goStr "Byron King")) :=
  ⟨⟨(buildDetailedUserProfile_splits_name bareUser adaPayload (goStr "Ada") [goStr "Lovelace"]
        (Or.inl rfl) (Or.inl rfl) (by decide)).1,
     (buildDetailedUserProfile_splits_name bareUser adaPayload (goStr "Ada") [goStr "Lovelace"]
        (Or.inl rfl) (Or.inl rfl) (by decide)).2.2.2.1 (goStr "Lovelace") rfl⟩,
   ⟨(buildDetailedUserProfile_splits_name bareUser singleNamePayload (goStr "Ada") []
        (Or.inl rfl) (Or.inl rfl) (by decide)).1,
     (buildDetailedUserProfile_splits_name bareUser singleNamePayload (goStr "Ada") []
        (Or.inl rfl) (Or.inl rfl) (by decide)).2.2.1 rfl⟩,
   ⟨(buildDetailedUserProfile_splits_name
        { bareUser with FirstName := some [], LastName := some [] } threeNamePayload
        (goStr "Ada") [goStr "Byron", goStr "King"] (Or.inr rfl) (Or.inr rfl) (by decide)).1,
     (buildDetailedUserProfile_splits_name
        { bareUser with FirstName := some [], LastName := some [] } threeNamePayload
        (goStr "Ada") [goStr "Byron", goStr "King"] (Or.inr rfl) (Or.inr rfl)
        (by decide)).2.2.2.2 (goStr "Byron") (goStr "King") rfl⟩⟩

/-- C8, as stated, fails: a record that lists one email and declares no
primary-email identifier gets the empty string from `getPrimaryEmail`, not the
address of the first listed email. -/
theorem getPrimaryEmail_undeclared_counterexample :
    getPrimaryEmail { bareUser with
        EmailAddresses := [⟨goStr "idn_1", goStr "ada@example.org"⟩],
        PrimaryEmailAddressID := none } = []
      ∧ goStr "ada@example.org" ≠ [] :=
  ⟨rfl, by decide⟩

theorem find_append_first (pid : GoString) (pre post : List EmailAddress) (email : EmailAddress)
    (hpre : ∀ e ∈ pre, e.ID ≠ pid) (hid : email.ID = pid) :
    (pre ++ email :: post).find? (fun e => decide (e.ID = pid)) = some email := by
  induction pre with
  | nil => simp [hid]
  | cons a pre ih =>
    have ha : a.ID ≠ pid := hpre a (List.mem_cons_self a pre)
    have ih2 := ih fun e he => hpre e (List.mem_cons_of_mem a he)
    simpa [List.find?, ha] using ih2

theorem find_none_of_no_match (pid : GoString) (l : List EmailAddress)
    (h : ∀ e ∈ l, e.ID ≠ pid) :
    l.find? (fun e => decide (e.ID = pid)) = none := by
  rw [List.find?_eq_none]
  intro e he
  simpa using h e he

/-- C8, amended: with a declared primary-email identifier and a non-empty email
list, `getPrimaryEmail` returns the address of the first listed email whose
ID equals the identifier, and the address of the first listed email when no
listed email matches; it returns the empty string when no identifier is
declared, and when the email list is empty. -/
theorem getPrimaryEmail_selection (user : User) :
    (∀ pid pre email post, user.PrimaryEmailAddressID = some pid →
        user.EmailAddresses = pre ++ email :: post → (∀ e ∈ pre, e.ID ≠ pid) →
        email.ID = pid → getPrimaryEmail user = email.EmailAddress)
      ∧ (∀ pid first rest, user.PrimaryEmailAddressID = some pid →
        user.EmailAddresses = first :: rest → (∀ e ∈ first :: rest, e.ID ≠ pid) →
        getPrimaryEmail user = first.EmailAddress)
      ∧ (user.PrimaryEmailAddressID = none → getPrimaryEmail user = [])
      ∧ (user.EmailAddresses = [] → getPrimaryEmail user = []) := by
  refine ⟨?_, ?_, ?_, ?_⟩
  · intro pid pre email post hp he hpre hid
    have hfind := find_append_first pid pre post email hpre hid
    unfold getPrimaryEmail
    rw [hp, he]
    cases pre with
    | nil =>
      simp only [List.nil_append] at hfind ⊢
      rw [hfind]
    | cons a pre2 =>
      simp only [List.cons_append] at hfind ⊢
      rw [hfind]
  · intro pid first rest hp he hno
    have hfind := find_none_of_no_match pid (first :: rest) hno
    unfold getPrimaryEmail
    rw [hp, he]
    simp only []
    rw [hfind]
  · intro hp
    unfold getPrimaryEmail
    rw [hp]
    cases user.EmailAddresses <;> rfl
  · intro he
    unfold getPrimaryEmail
    rw [he]

theorem getPrimaryEmail_selection_witness :
    getPrimaryEmail { bareUser with
        EmailAddresses := [⟨goStr "idn_1", goStr "old@example.org"⟩,
          ⟨goStr "idn_2", goStr "ada@example.org"⟩],
        PrimaryEmailAddressID := some (goStr "idn_2") } = goStr "ada@example.org"
      ∧ getPrimaryEmail { bareUser with
        EmailAddresses := [⟨goStr "idn_1", goStr "old@example.org"⟩,
          ⟨goStr "idn_2", goStr "ada@example.org"⟩],
        PrimaryEmailAddressID := some (goStr "idn_9") } = goStr "old@example.org"
      ∧ getPrimaryEmail { bareUser with
        EmailAddresses := [⟨goStr "idn_1", goStr "old@example.org"⟩] } = []
      ∧ getPrimaryEmail bareUser = [] :=
  ⟨(getPrimaryEmail_selection _).1 (goStr "idn_2") [⟨goStr "idn_1", goStr "old@example.org"⟩]
      ⟨goStr "idn_2", goStr "ada@example.org"⟩ [] rfl rfl (by decide) rfl,
   (getPrimaryEmail_selection _).2.1 (goStr "idn_9") ⟨goStr "idn_1", goStr "old@example.org"⟩
      [⟨goStr "idn_2", goStr "ada@example.org"⟩] rfl rfl (by decide),
   (getPrimaryEmail_selection _).2.2.1 rfl,
   (getPrimaryEmail_selection _).2.2.2 rfl⟩

/-! ## Theorems: the header resolver -/

theorem unhex_upperhex : ∀ n, n < 16 → unhex (upperhex n) = n := by
  decide

theorem ishex_upperhex : ∀ n, n < 16 → ishex (upperhex n) = true := by
  decide

theorem unreserved_not_escape (c : Nat) (h : unreserved c = true) : c ≠ 37 ∧ c ≠ 43 := by
  unfold unreserved at h
  simp only [decide_eq_true_eq] at h
  omega

theorem QueryUnescape_literal (c : Nat) (rest : GoString) (h37 : c ≠ 37) (h43 : c ≠ 43) :
    QueryUnescape (c :: rest) = (QueryUnescape rest).map fun tail => c :: tail := by
  match rest with
  | [] => simp only [QueryUnescape, h37, h43, if_false]
  | [_] => simp only [QueryUnescape, h37, h43, if_false]
  | _ :: _ :: _ => simp only [QueryUnescape, h37, h43, if_false]

theorem QueryUnescape_escape (h1 h2 : Nat) (rest : GoString)
    (hh1 : ishex h1 = true) (hh2 : ishex h2 = true) :
    QueryUnescape (37 :: h1 :: h2 :: rest)
      = (QueryUnescape rest).map fun tail => (unhex h1 * 16 + unhex h2) :: tail := by
  rw [QueryUnescape]
  simp only [if_true, hh1, hh2, Bool.and_self]

theorem QueryUnescape_percentEncode :
    ∀ s : GoString, IsBytes s → QueryUnescape (percentEncode s) = some s
  | [], _ => rfl
  | c :: rest, hs => by
      have hc : c < 256 := hs c (List.mem_cons_self c rest)
      have ih := QueryUnescape_percentEncode rest fun b hb => hs b (List.mem_cons_of_mem c hb)
      by_cases hu : unreserved c = true
      · obtain ⟨h37, h43⟩ := unreserved_not_escape c hu
        simp only [percentEncode, hu, if_true]
        rw [QueryUnescape_literal c _ h37 h43, ih]
        rfl
      · have hhi : c / 16 < 16 := by omega
        have hlo : c % 16 < 16 := by omega
        have hval : c / 16 * 16 + c % 16 = c := by omega
        simp only [percentEncode, hu, if_false, Bool.false_eq_true]
        rw [QueryUnescape_escape _ _ _ (ishex_upperhex _ hhi) (ishex_upperhex _ hlo), ih,
          unhex_upperhex _ hhi, unhex_upperhex _ hlo, hval]
        rfl

theorem decodeMap_encodeSextet : ∀ v, v < 64 → decodeMap (encodeSextet v) = some v := by
  decide

theorem upperhex_lt (n : Nat) (h : n < 16) : upperhex n < 256 := by
  unfold upperhex
  split <;> omega

theorem percentEncode_isBytes : ∀ s : GoString, IsBytes s → IsBytes (percentEncode s)
  | [], _ => by
      intro b hb
      simp [percentEncode] at hb
  | c :: rest, hs => by
      have hc : c < 256 := hs c (List.mem_cons_self c rest)
      have ih := percentEncode_isBytes rest fun b hb => hs b (List.mem_cons_of_mem c hb)
      have hhi : upperhex (c / 16) < 256 := upperhex_lt _ (by omega)
      have hlo : upperhex (c % 16) < 256 := upperhex_lt _ (by omega)
      intro b hb
      by_cases hu : unreserved c = true
      · simp only [percentEncode, hu, if_true, List.mem_cons] at hb
        rcases hb with rfl | hb
        · exact hc
        · exact ih b hb
      · simp only [percentEncode, hu, if_false, Bool.false_eq_true, List.mem_cons] at hb
        rcases hb with rfl | rfl | rfl | hb
        · omega
        · exact hhi
        · exact hlo
        · exact ih b hb

theorem decodeFrom_quantum (c0 c1 c2 c3 v0 v1 v2 v3 : Nat) (rest : GoString)
    (h0 : decodeMap c0 = some v0) (h1 : decodeMap c1 = some v1)
    (h2 : decodeMap c2 = some v2) (h3 : decodeMap c3 = some v3) :
    decodeFrom [] (c0 :: c1 :: c2 :: c3 :: rest)
      = (decodeFrom [] rest).map fun tail => quantumBytes [v0, v1, v2, v3] 4 ++ tail := by
  simp [decodeFrom, h0, h1, h2, h3]

theorem decodeMap_pad : decodeMap 61 = none := by decide

theorem decodeFrom_pad1 (c0 c1 c2 v0 v1 v2 : Nat)
    (h0 : decodeMap c0 = some v0) (h1 : decodeMap c1 = some v1)
    (h2 : decodeMap c2 = some v2) :
    decodeFrom [] [c0, c1, c2, 61] = some (quantumBytes [v0, v1, v2] 3) := by
  simp [decodeFrom, h0, h1, h2, decodeMap_pad, skipNewlines]

theorem decodeFrom_pad2 (c0 c1 v0 v1 : Nat)
    (h0 : decodeMap c0 = some v0) (h1 : decodeMap c1 = some v1) :
    decodeFrom [] [c0, c1, 61, 61] = some (quantumBytes [v0, v1] 2) := by
  simp [decodeFrom, h0, h1, decodeMap_pad, skipNewlines]

theorem quantumBytes_full (b0 b1 b2 : Nat) (h0 : b0 < 256) (h1 : b1 < 256) (h2 : b2 < 256) :
    quantumBytes
        [(b0 * 65536 + b1 * 256 + b2) / 262144 % 64, (b0 * 65536 + b1 * 256 + b2) / 4096 % 64,
         (b0 * 65536 + b1 * 256 + b2) / 64 % 64, (b0 * 65536 + b1 * 256 + b2) % 64] 4
      = [b0, b1, b2] := by
  simp only [quantumBytes, List.getD_cons_zero, List.getD_cons_succ, List.take]
  refine congrArg₂ _ ?_ (congrArg₂ _ ?_ (congrArg₂ _ ?_ rfl)) <;> omega

theorem quantumBytes_two (b0 b1 : Nat) (h0 : b0 < 256) (h1 : b1 < 256) :
    quantumBytes
        [(b0 * 65536 + b1 * 256) / 262144 % 64, (b0 * 65536 + b1 * 256) / 4096 % 64,
         (b0 * 65536 + b1 * 256) / 64 % 64] 3
      = [b0, b1] := by
  simp only [quantumBytes, List.getD_cons_zero, List.getD_cons_succ, List.getD_nil, List.take]
  refine congrArg₂ _ ?_ (congrArg₂ _ ?_ rfl) <;> omega

theorem quantumBytes_one (b0 : Nat) (h0 : b0 < 256) :
    quantumBytes [b0 * 65536 / 262144 % 64, b0 * 65536 / 4096 % 64] 2 = [b0] := by
  simp only [quantumBytes, List.getD_cons_zero, List.getD_cons_succ, List.getD_nil, List.take]
  refine congrArg₂ _ ?_ rfl
  omega

theorem DecodeString_EncodeToString :
    ∀ b : GoString, IsBytes b → DecodeString (EncodeToString b) = some b
  | [], _ => rfl
  | [b0], hb => by
      have h0 : b0 < 256 := hb b0 (by simp)
      simp only [DecodeString, EncodeToString]
      rw [decodeFrom_pad2 _ _ _ _ (decodeMap_encodeSextet _ (Nat.mod_lt _ (by decide)))
        (decodeMap_encodeSextet _ (Nat.mod_lt _ (by decide))), quantumBytes_one b0 h0]
  | [b0, b1], hb => by
      have h0 : b0 < 256 := hb b0 (by simp)
      have h1 : b1 < 256 := hb b1 (by simp)
      simp only [DecodeString, EncodeToString]
      rw [decodeFrom_pad1 _ _ _ _ _ _ (decodeMap_encodeSextet _ (Nat.mod_lt _ (by decide)))
        (decodeMap_encodeSextet _ (Nat.mod_lt _ (by decide)))
        (decodeMap_encodeSextet _ (Nat.mod_lt _ (by decide))), quantumBytes_two b0 b1 h0 h1]
  | b0 :: b1 :: b2 :: rest, hb => by
      have h0 : b0 < 256 := hb b0 (by simp)
      have h1 : b1 < 256 := hb b1 (by simp)
      have h2 : b2 < 256 := hb b2 (by simp)
      have ih := DecodeString_EncodeToString rest fun x hx => hb x (by simp [hx])
      simp only [DecodeString] at ih ⊢
      simp only [EncodeToString]
      rw [decodeFrom_quantum _ _ _ _ _ _ _ _ _
        (decodeMap_encodeSextet _ (Nat.mod_lt _ (by decide)))
        (decodeMap_encodeSextet _ (Nat.mod_lt _ (by decide)))
        (decodeMap_encodeSextet _ (Nat.mod_lt _ (by decide)))
        (decodeMap_encodeSextet _ (Nat.mod_lt _ (by decide))), ih,
        quantumBytes_full b0 b1 b2 h0 h1 h2]
      rfl

theorem decodeEncodedHeader_round_trip (s : GoString) (hs : IsBytes s) :
    decodeEncodedHeader (EncodeToString (percentEncode s)) = some s := by
  unfold decodeEncodedHeader
  rw [DecodeString_EncodeToString _ (percentEncode_isBytes s hs)]
  exact QueryUnescape_percentEncode s hs

/-- C9. The raw header wins: when the header `name` has the non-empty value
`v`, `getHeaderValueSafe` returns `v`, whatever the header `name-Encoded`
holds. -/
theorem getHeaderValueSafe_raw_wins (r : Request) (name v : GoString)
    (hraw : r.Header.Get name = v) (hv : v ≠ []) :
    getHeaderValueSafe r name = v := by
  unfold getHeaderValueSafe
  simp only [hraw, hv, ne_eq, not_false_eq_true, if_true]

theorem getHeaderValueSafe_raw_wins_witness :
    getHeaderValueSafe
        ⟨goStr "GET", [(goStr "Authorization", [goStr "Bearer abc"]),
          (goStr "Authorization-Encoded", [goStr "%%% not base64"])]⟩
        (goStr "Authorization") = goStr "Bearer abc" :=
  getHeaderValueSafe_raw_wins _ (goStr "Authorization") (goStr "Bearer abc") (by decide)
    (by decide)

/-- C10. Round trip: when the request has no header `name`, and the header
`name-Encoded` is the standard base64 encoding of the percent-encoding of a
string `s`, `getHeaderValueSafe` returns `s`; and when that header is not
valid base64, or decodes to text that is not percent-decodable, it returns
the empty string. -/
theorem getHeaderValueSafe_round_trip (r : Request) (name : GoString)
    (hraw : r.Header.Get name = []) :
    (∀ s : GoString, IsBytes s →
        r.Header.Get (name ++ goStr "-Encoded") = EncodeToString (percentEncode s) →
        getHeaderValueSafe r name = s)
      ∧ (DecodeString (r.Header.Get (name ++ goStr "-Encoded")) = none
          ∨ (∃ d, DecodeString (r.Header.Get (name ++ goStr "-Encoded")) = some d
              ∧ QueryUnescape d = none) →
        getHeaderValueSafe r name = []) := by
  constructor
  · intro s hs henc
    have hrt := decodeEncodedHeader_round_trip s hs
    unfold getHeaderValueSafe
    simp only [hraw, ne_eq, not_true_eq_false, if_false, henc]
    by_cases hempty : EncodeToString (percentEncode s) = []
    · rw [hempty] at hrt
      have : some ([] : GoString) = some s := hrt
      simp only [hempty, not_true_eq_false, if_false]
      exact Option.some.inj this
    · simp only [hempty, not_false_eq_true, if_true, hrt]
  · intro hbad
    have hnone : decodeEncodedHeader (r.Header.Get (name ++ goStr "-Encoded")) = none := by
      unfold decodeEncodedHeader
      rcases hbad with h | ⟨d, h, hq⟩
      · rw [h]
      · rw [h]
        exact hq
    unfold getHeaderValueSafe
    simp only [hraw, ne_eq, not_true_eq_false, if_false, hnone]
    split <;> rfl

theorem getHeaderValueSafe_round_trip_witness :
    getHeaderValueSafe
        ⟨goStr "GET", [(goStr "Authorization-Encoded",
          [EncodeToString (percentEncode (goStr "Bearer zoë+1 %"))])]⟩
        (goStr "Authorization") = goStr "Bearer zoë+1 %"
      ∧ getHeaderValueSafe
        ⟨goStr "GET", [(goStr "Authorization-Encoded", [goStr "QmVhcmVy*"])]⟩
        (goStr "Authorization") = []
      ∧ getHeaderValueSafe
        ⟨goStr "GET", [(goStr "Authorization-Encoded", [EncodeToString (goStr "100%")])]⟩
        (goStr "Authorization") = [] :=
  ⟨(getHeaderValueSafe_round_trip
      ⟨goStr "GET", [(goStr "Authorization-Encoded",
        [EncodeToString (percentEncode (goStr "Bearer zoë+1 %"))])]⟩
      (goStr "Authorization") (by decide)).1 (goStr "Bearer zoë+1 %")
      (by decide) (by decide),
   (getHeaderValueSafe_round_trip
      ⟨goStr "GET", [(goStr "Authorization-Encoded", [goStr "QmVhcmVy*"])]⟩
      (goStr "Authorization") (by decide)).2 (Or.inl (by decide)),
   (getHeaderValueSafe_round_trip
      ⟨goStr "GET", [(goStr "Authorization-Encoded", [EncodeToString (goStr "100%")])]⟩
      (goStr "Authorization") (by decide)).2
      (Or.inr ⟨goStr "100%", by decide, by decide⟩)⟩

/-! ## Theorems: the gates of `middleware.go` -/

theorem Header.values_setValues (key key2 : GoString) (vs : List GoString) :
    ∀ h : Header, (h.setValues key vs).values key2
      = if key = key2 then vs else h.values key2
  | [] => by
      by_cases hk : key = key2 <;> simp [Header.setValues, Header.values, hk]
  | (k, vs') :: rest => by
      by_cases h1 : k = key
      · subst h1
        by_cases hk : k = key2 <;> simp [Header.setValues, Header.values, hk]
      · by_cases hk : key = key2
        · subst hk
          simp [Header.setValues, Header.values, h1, Header.values_setValues key key vs rest]
        · by_cases h2 : k = key2
          · subst h2
            simp [Header.setValues, Header.values, h1, hk]
          · simp [Header.setValues, Header.values, h1, h2, hk,
              Header.values_setValues key key2 vs rest]

theorem Header.Get_Set_same (h : Header) (key key2 value : GoString)
    (hk : CanonicalMIMEHeaderKey key = CanonicalMIMEHeaderKey key2) :
    (h.Set key value).Get key2 = value := by
  simp [Header.Get, Header.Set, Header.values_setValues, hk]

theorem Header.Get_Set_other (h : Header) (key key2 value : GoString)
    (hk : CanonicalMIMEHeaderKey key ≠ CanonicalMIMEHeaderKey key2) :
    (h.Set key value).Get key2 = h.Get key2 := by
  simp [Header.Get, Header.Set, Header.values_setValues, hk]

theorem getAuthHeaderSafe_eq_nil_iff (r : Request) :
    getAuthHeaderSafe r = []
      ↔ r.Header.Get (goStr "Authorization") = []
        ∧ (DecodeString (r.Header.Get (goStr "Authorization-Encoded")) = none
          ∨ DecodeString (r.Header.Get (goStr "Authorization-Encoded")) = some []) := by
  unfold getAuthHeaderSafe
  by_cases hraw : r.Header.Get (goStr "Authorization") = []
  · by_cases henc : r.Header.Get (goStr "Authorization-Encoded") = []
    · have hd : DecodeString ([] : GoString) = some [] := rfl
      simp [hraw, henc, hd]
    · cases hd : DecodeString (r.Header.Get (goStr "Authorization-Encoded")) with
      | none => simp [hraw, henc, hd]
      | some d => simp [hraw, henc, hd]
  · simp [hraw]

/-- C11. The credential gate does not resolve the credential as the header
resolver does: for the header `Authorization-Encoded` that is the base64 text
of `Bearer%20abc`, `getAuthHeaderSafe` returns `Bearer%20abc` where
`getHeaderValueSafe` returns `Bearer abc`. -/
theorem getAuthHeaderSafe_skips_percent_decoding :
    getAuthHeaderSafe (sampleRequest "GET" [("Authorization-Encoded", "QmVhcmVyJTIwYWJj")])
        = goStr "Bearer%20abc"
      ∧ getHeaderValueSafe (sampleRequest "GET" [("Authorization-Encoded", "QmVhcmVyJTIwYWJj")])
          (goStr "Authorization") = goStr "Bearer abc"
      ∧ goStr "Bearer%20abc" ≠ goStr "Bearer abc" := by
  decide

theorem httpError_status_body (w : Response) (msg : GoString) (code : Nat)
    (hstatus : w.status = none) (hbody : w.body = []) :
    (httpError w msg code).status = some code ∧ (httpError w msg code).body = msg ++ [10] := by
  simp [httpError, Response.Write, Response.WriteHeader, Response.SetHeader, hstatus, hbody]

/-- C12. Outcomes of the credential gate, for a response to which nothing has
been written.  (i) Without a raw `Authorization` header and without an
`Authorization-Encoded` header that decodes to a non-empty text, the reply is
401 with `Missing Authorization header`.  (ii) When verification fails with
a text that contains `expired` or `future`, the reply is 401 and starts with
`Token time validation failed: `.  (iii) On any other failure the reply is
401 and starts with `Invalid token: `.  In these three cases the reply is
the same for every wrapped handler, which is therefore not invoked.  (iv)
When verification succeeds, the result is that of the wrapped handler, run
once on the request with the subject written into it. -/
theorem ClerkAuthMiddleware_outcomes (client : Client) (w : Response) (r : Request)
    (hstatus : w.status = none) (hbody : w.body = []) :
    (r.Header.Get (goStr "Authorization") = [] →
        (DecodeString (r.Header.Get (goStr "Authorization-Encoded")) = none
          ∨ DecodeString (r.Header.Get (goStr "Authorization-Encoded")) = some []) →
        ∀ next, ClerkAuthMiddleware next client w r
            = httpError w (goStr "Missing Authorization header") 401
          ∧ (ClerkAuthMiddleware next client w r).status = some 401
          ∧ (ClerkAuthMiddleware next client w r).body
              = goStr "Missing Authorization header" ++ [10])
      ∧ (∀ err, getAuthHeaderSafe r ≠ [] →
        client.VerifyToken (TrimPrefix (getAuthHeaderSafe r) (goStr "Bearer ")) = .error err →
        (Contains err (goStr "expired") = true ∨ Contains err (goStr "future") = true) →
        ∀ next, ClerkAuthMiddleware next client w r
            = httpError w (goStr "Token time validation failed: " ++ err) 401
          ∧ (ClerkAuthMiddleware next client w r).status = some 401
          ∧ (ClerkAuthMiddleware next client w r).body
              = goStr "Token time validation failed: " ++ err ++ [10])
      ∧ (∀ err, getAuthHeaderSafe r ≠ [] →
        client.VerifyToken (TrimPrefix (getAuthHeaderSafe r) (goStr "Bearer ")) = .error err →
        Contains err (goStr "expired") = false → Contains err (goStr "future") = false →
        ∀ next, ClerkAuthMiddleware next client w r
            = httpError w (goStr "Invalid token: " ++ err) 401
          ∧ (ClerkAuthMiddleware next client w r).status = some 401
          ∧ (ClerkAuthMiddleware next client w r).body = goStr "Invalid token: " ++ err ++ [10])
      ∧ (∀ claims, getAuthHeaderSafe r ≠ [] →
        client.VerifyToken (TrimPrefix (getAuthHeaderSafe r) (goStr "Bearer ")) = .ok claims →
        ∀ next, ClerkAuthMiddleware next client w r
            = next w { r with
                Header := r.Header.Set (goStr "X-Clerk-User-Id") claims.Subject }) := by
  refine ⟨?_, ?_, ?_, ?_⟩
  · intro hraw henc next
    have hempty : getAuthHeaderSafe r = [] := (getAuthHeaderSafe_eq_nil_iff r).mpr ⟨hraw, henc⟩
    have heq : ClerkAuthMiddleware next client w r
        = httpError w (goStr "Missing Authorization header") 401 := by
      simp [ClerkAuthMiddleware, hempty]
    rw [heq]
    exact ⟨rfl, httpError_status_body w _ 401 hstatus hbody⟩
  · intro err hauth hverify htime next
    have hcond : (Contains err (goStr "future") || Contains err (goStr "expired")) = true := by
      rcases htime with h | h <;> simp [h]
    have heq : ClerkAuthMiddleware next client w r
        = httpError w (goStr "Token time validation failed: " ++ err) 401 := by
      simp only [ClerkAuthMiddleware, hauth, if_false, hverify, hcond, if_true]
    rw [heq]
    exact ⟨rfl, httpError_status_body w _ 401 hstatus hbody⟩
  · intro err hauth hverify hexpired hfuture next
    have heq : ClerkAuthMiddleware next client w r
        = httpError w (goStr "Invalid token: " ++ err) 401 := by
      simp [ClerkAuthMiddleware, hauth, hverify, hexpired, hfuture]
    rw [heq]
    exact ⟨rfl, httpError_status_body w _ 401 hstatus hbody⟩
  · intro claims hauth hverify next
    simp only [ClerkAuthMiddleware, hauth, if_false, hverify]

theorem ClerkAuthMiddleware_outcomes_witness :
    (ClerkAuthMiddleware echoSubject sampleClient freshResponse
          (sampleRequest "GET" [("Authorization-Encoded", "%%%")])
        = httpError freshResponse (goStr "Missing Authorization header") 401
      ∧ (ClerkAuthMiddleware echoSubject sampleClient freshResponse
          (sampleRequest "GET" [("Authorization-Encoded", "%%%")])).status = some 401
      ∧ (ClerkAuthMiddleware echoSubject sampleClient freshResponse
          (sampleRequest "GET" [("Authorization-Encoded", "%%%")])).body
          = goStr "Missing Authorization header" ++ [10])
    ∧ (ClerkAuthMiddleware echoSubject sampleClient freshResponse
          (sampleRequest "GET" [("Authorization", "Bearer old")])
        = httpError freshResponse
            (goStr "Token time validation failed: " ++ goStr "token is expired") 401
      ∧ (ClerkAuthMiddleware echoSubject sampleClient freshResponse
          (sampleRequest "GET" [("Authorization", "Bearer old")])).status = some 401
      ∧ (ClerkAuthMiddleware echoSubject sampleClient freshResponse
          (sampleRequest "GET" [("Authorization", "Bearer old")])).body
          = goStr "Token time validation failed: " ++ goStr "token is expired" ++ [10])
    ∧ (ClerkAuthMiddleware echoSubject sampleClient freshResponse
          (sampleRequest "GET" [("Authorization", "Bearer forged")])
        = httpError freshResponse (goStr "Invalid token: " ++ goStr "bad signature") 401
      ∧ (ClerkAuthMiddleware echoSubject sampleClient freshResponse
          (sampleRequest "GET" [("Authorization", "Bearer forged")])).status = some 401
      ∧ (ClerkAuthMiddleware echoSubject sampleClient freshResponse
          (sampleRequest "GET" [("Authorization", "Bearer forged")])).body
          = goStr "Invalid token: " ++ goStr "bad signature" ++ [10])
    ∧ ClerkAuthMiddleware echoSubject sampleClient freshResponse
          (sampleRequest "GET" [("Authorization", "Bearer good")])
        = echoSubject freshResponse
            { sampleRequest "GET" [("Authorization", "Bearer good")] with
              Header := (sampleRequest "GET" [("Authorization", "Bearer good")]).Header.Set
                (goStr "X-Clerk-User-Id") (goStr "user_1") } :=
  ⟨(ClerkAuthMiddleware_outcomes sampleClient freshResponse
      (sampleRequest "GET" [("Authorization-Encoded", "%%%")]) rfl rfl).1
      (by decide) (Or.inl (by decide)) echoSubject,
   (ClerkAuthMiddleware_outcomes sampleClient freshResponse
      (sampleRequest "GET" [("Authorization", "Bearer old")]) rfl rfl).2.1
      (goStr "token is expired") (by decide) rfl (Or.inl (by decide)) echoSubject,
   (ClerkAuthMiddleware_outcomes sampleClient freshResponse
      (sampleRequest "GET" [("Authorization", "Bearer forged")]) rfl rfl).2.2.1
      (goStr "bad signature") (by decide) rfl (by decide) (by decide) echoSubject,
   (ClerkAuthMiddleware_outcomes sampleClient freshResponse
      (sampleRequest "GET" [("Authorization", "Bearer good")]) rfl rfl).2.2.2
      ⟨goStr "user_1"⟩ (by decide) rfl echoSubject⟩

theorem isAllowedOrigin_of_mem (origin : GoString) (h : origin ∈ allowedOrigins) :
    isAllowedOrigin origin = true := by
  unfold isAllowedOrigin
  rw [List.any_eq_true]
  exact ⟨origin, h, by simp⟩

theorem isAllowedOrigin_of_not_mem (origin : GoString) (h : origin ∉ allowedOrigins) :
    isAllowedOrigin origin = false := by
  unfold isAllowedOrigin
  rw [Bool.eq_false_iff]
  intro hany
  rw [List.any_eq_true] at hany
  obtain ⟨x, hx, hxo⟩ := hany
  have : origin = x := by simpa using hxo
  exact h (this ▸ hx)

theorem allowedOrigins_ne_nil (origin : GoString) (h : origin ∈ allowedOrigins) :
    origin ≠ [] := by
  intro hnil
  rw [hnil] at h
  revert h
  decide

/-- C13. Preflight: for a request of method `OPTIONS` and a response without a
status, an origin of the allow-list gets the status 200 with
`Access-Control-Allow-Origin` equal to the origin and the methods, headers,
credentials and max-age headers set; a non-empty origin outside the
allow-list gets the status 403 and the response headers are left as they
were; and the result is the same for every next handler, which is never
invoked. -/
theorem CORSMiddleware_preflight (next : Handler) (w : Response) (r : Request)
    (hmethod : r.Method = goStr "OPTIONS") (hstatus : w.status = none) :
    (r.Header.Get (goStr "Origin") ∈ allowedOrigins →
        (CORSMiddleware next w r).status = some 200
        ∧ (CORSMiddleware next w r).Header.Get (goStr "Access-Control-Allow-Origin")
            = r.Header.Get (goStr "Origin")
        ∧ (CORSMiddleware next w r).Header.Get (goStr "Access-Control-Allow-Methods")
            = goStr "GET, POST, PUT, DELETE, OPTIONS, PATCH"
        ∧ (CORSMiddleware next w r).Header.Get (goStr "Access-Control-Allow-Headers")
            = allowedRequestHeaders
        ∧ (CORSMiddleware next w r).Header.Get (goStr "Access-Control-Allow-Credentials")
            = goStr "true"
        ∧ (CORSMiddleware next w r).Header.Get (goStr "Access-Control-Max-Age")
            = goStr "86400")
      ∧ (r.Header.Get (goStr "Origin") ≠ [] → r.Header.Get (goStr "Origin") ∉ allowedOrigins →
        (CORSMiddleware next w r).status = some 403
        ∧ (CORSMiddleware next w r).Header = w.Header
        ∧ (CORSMiddleware next w r).body = w.body)
      ∧ (∀ other : Handler, CORSMiddleware other w r = CORSMiddleware next w r) := by
  refine ⟨?_, ?_, ?_⟩
  · intro hmem
    have hallowed := isAllowedOrigin_of_mem _ hmem
    have heq : CORSMiddleware next w r
        = (((((w.SetHeader (goStr "Access-Control-Allow-Origin")
            (r.Header.Get (goStr "Origin"))).SetHeader (goStr "Access-Control-Allow-Methods")
            (goStr "GET, POST, PUT, DELETE, OPTIONS, PATCH")).SetHeader
            (goStr "Access-Control-Allow-Headers") allowedRequestHeaders).SetHeader
            (goStr "Access-Control-Allow-Credentials") (goStr "true")).SetHeader
            (goStr "Access-Control-Max-Age") (goStr "86400")).WriteHeader 200 := by
      simp only [CORSMiddleware, hmethod, if_true, hallowed, Bool.true_or]
    rw [heq]
    simp only [Response.WriteHeader, Response.SetHeader, hstatus]
    refine ⟨trivial, ?_, ?_, ?_, ?_, ?_⟩
    · rw [Header.Get_Set_other _ (goStr "Access-Control-Max-Age") (goStr "Access-Control-Allow-Origin") _ (by decide),
      Header.Get_Set_other _ (goStr "Access-Control-Allow-Credentials") (goStr "Access-Control-Allow-Origin") _ (by decide),
      Header.Get_Set_other _ (goStr "Access-Control-Allow-Headers") (goStr "Access-Control-Allow-Origin") _ (by decide),
      Header.Get_Set_other _ (goStr "Access-Control-Allow-Methods") (goStr "Access-Control-Allow-Origin") _ (by decide),
      Header.Get_Set_same _ (goStr "Access-Control-Allow-Origin") (goStr "Access-Control-Allow-Origin") _ rfl]
    · rw [Header.Get_Set_other _ (goStr "Access-Control-Max-Age") (goStr "Access-Control-Allow-Methods") _ (by decide),
      Header.Get_Set_other _ (goStr "Access-Control-Allow-Credentials") (goStr "Access-Control-Allow-Methods") _ (by decide),
      Header.Get_Set_other _ (goStr "Access-Control-Allow-Headers") (goStr "Access-Control-Allow-Methods") _ (by decide),
      Header.Get_Set_same _ (goStr "Access-Control-Allow-Methods") (goStr "Access-Control-Allow-Methods") _ rfl]
    · rw [Header.Get_Set_other _ (goStr "Access-Control-Max-Age") (goStr "Access-Control-Allow-Headers") _ (by decide),
      Header.Get_Set_other _ (goStr "Access-Control-Allow-Credentials") (goStr "Access-Control-Allow-Headers") _ (by decide),
      Header.Get_Set_same _ (goStr "Access-Control-Allow-Headers") (goStr "Access-Control-Allow-Headers") _ rfl]
    · rw [Header.Get_Set_other _ (goStr "Access-Control-Max-Age") (goStr "Access-Control-Allow-Credentials") _ (by decide),
      Header.Get_Set_same _ (goStr "Access-Control-Allow-Credentials") (goStr "Access-Control-Allow-Credentials") _ rfl]
    · rw [Header.Get_Set_same _ (goStr "Access-Control-Max-Age") (goStr "Access-Control-Max-Age") _ rfl]
  · intro hne hnot
    have hallowed := isAllowedOrigin_of_not_mem _ hnot
    have heq : CORSMiddleware next w r = w.WriteHeader 403 := by
      simp [CORSMiddleware, hmethod, hallowed, hne]
    rw [heq]
    simp [Response.WriteHeader, hstatus]
  · intro other
    simp only [CORSMiddleware, hmethod, if_true]

theorem CORSMiddleware_preflight_witness :
    ((CORSMiddleware echoSubject freshResponse
          (sampleRequest "OPTIONS" [("Origin", "http://localhost:3000")])).status = some 200
      ∧ (CORSMiddleware echoSubject freshResponse
          (sampleRequest "OPTIONS" [("Origin", "http://localhost:3000")])).Header.Get
            (goStr "Access-Control-Allow-Origin") = goStr "http://localhost:3000")
    ∧ ((CORSMiddleware echoSubject freshResponse
          (sampleRequest "OPTIONS" [("Origin", "http://evil.example")])).status = some 403
      ∧ (CORSMiddleware echoSubject freshResponse
          (sampleRequest "OPTIONS" [("Origin", "http://evil.example")])).Header = []) :=
  ⟨⟨((CORSMiddleware_preflight echoSubject freshResponse
        (sampleRequest "OPTIONS" [("Origin", "http://localhost:3000")]) rfl rfl).1
        (by decide)).1,
     ((CORSMiddleware_preflight echoSubject freshResponse
        (sampleRequest "OPTIONS" [("Origin", "http://localhost:3000")]) rfl rfl).1
        (by decide)).2.1⟩,
   ⟨((CORSMiddleware_preflight echoSubject freshResponse
        (sampleRequest "OPTIONS" [("Origin", "http://evil.example")]) rfl rfl).2.1
        (by decide) (by decide)).1,
     ((CORSMiddleware_preflight echoSubject freshResponse
        (sampleRequest "OPTIONS" [("Origin", "http://evil.example")]) rfl rfl).2.1
        (by decide) (by decide)).2.1⟩⟩

/-- C14. Requests of another method than `OPTIONS` are forwarded: the result
is that of the next handler, run once on the request.  For an origin of the
allow-list the response handed on carries `Access-Control-Allow-Origin` equal
to the origin and `Access-Control-Allow-Credentials: true`; without an origin
it carries `Access-Control-Allow-Origin: *` and the same credentials header;
for a non-empty origin outside the allow-list it is handed on unchanged. -/
theorem CORSMiddleware_forwards (next : Handler) (w : Response) (r : Request)
    (hmethod : r.Method ≠ goStr "OPTIONS") :
    (∃ w2, CORSMiddleware next w r = next w2 r)
      ∧ (r.Header.Get (goStr "Origin") ∈ allowedOrigins →
        ∃ w2, CORSMiddleware next w r = next w2 r
          ∧ w2 = (w.SetHeader (goStr "Access-Control-Allow-Origin")
              (r.Header.Get (goStr "Origin"))).SetHeader
              (goStr "Access-Control-Allow-Credentials") (goStr "true")
          ∧ w2.Header.Get (goStr "Access-Control-Allow-Origin") = r.Header.Get (goStr "Origin")
          ∧ w2.Header.Get (goStr "Access-Control-Allow-Credentials") = goStr "true")
      ∧ (r.Header.Get (goStr "Origin") = [] →
        ∃ w2, CORSMiddleware next w r = next w2 r
          ∧ w2 = (w.SetHeader (goStr "Access-Control-Allow-Origin") (goStr "*")).SetHeader
              (goStr "Access-Control-Allow-Credentials") (goStr "true")
          ∧ w2.Header.Get (goStr "Access-Control-Allow-Origin") = goStr "*"
          ∧ w2.Header.Get (goStr "Access-Control-Allow-Credentials") = goStr "true")
      ∧ (r.Header.Get (goStr "Origin") ≠ [] → r.Header.Get (goStr "Origin") ∉ allowedOrigins →
        CORSMiddleware next w r = next w r) := by
  refine ⟨?_, ?_, ?_, ?_⟩
  · simp only [CORSMiddleware, hmethod, if_false]
    exact ⟨_, rfl⟩
  · intro hmem
    have hallowed := isAllowedOrigin_of_mem _ hmem
    have hne := allowedOrigins_ne_nil _ hmem
    refine ⟨_, ?_, rfl, ?_, ?_⟩
    · simp [CORSMiddleware, hmethod, hallowed, hne]
    · simp only [Response.SetHeader]
      rw [Header.Get_Set_other _ (goStr "Access-Control-Allow-Credentials")
        (goStr "Access-Control-Allow-Origin") _ (by decide),
        Header.Get_Set_same _ (goStr "Access-Control-Allow-Origin")
          (goStr "Access-Control-Allow-Origin") _ rfl]
    · simp only [Response.SetHeader]
      rw [Header.Get_Set_same _ (goStr "Access-Control-Allow-Credentials")
          (goStr "Access-Control-Allow-Credentials") _ rfl]
  · intro hnil
    refine ⟨_, ?_, rfl, ?_, ?_⟩
    · simp [CORSMiddleware, hmethod, hnil]
    · simp only [Response.SetHeader]
      rw [Header.Get_Set_other _ (goStr "Access-Control-Allow-Credentials")
        (goStr "Access-Control-Allow-Origin") _ (by decide),
        Header.Get_Set_same _ (goStr "Access-Control-Allow-Origin")
          (goStr "Access-Control-Allow-Origin") _ rfl]
    · simp only [Response.SetHeader]
      rw [Header.Get_Set_same _ (goStr "Access-Control-Allow-Credentials")
          (goStr "Access-Control-Allow-Credentials") _ rfl]
  · intro hne hnot
    have hallowed := isAllowedOrigin_of_not_mem _ hnot
    simp [CORSMiddleware, hmethod, hallowed, hne]

theorem CORSMiddleware_forwards_witness :
    (∃ w2, CORSMiddleware echoSubject freshResponse
        (sampleRequest "GET" [("Origin", "http://localhost:3000")])
          = echoSubject w2 (sampleRequest "GET" [("Origin", "http://localhost:3000")])
      ∧ w2 = (freshResponse.SetHeader (goStr "Access-Control-Allow-Origin")
          ((sampleRequest "GET" [("Origin", "http://localhost:3000")]).Header.Get
            (goStr "Origin"))).SetHeader
          (goStr "Access-Control-Allow-Credentials") (goStr "true")
      ∧ w2.Header.Get (goStr "Access-Control-Allow-Origin")
          = (sampleRequest "GET" [("Origin", "http://localhost:3000")]).Header.Get
            (goStr "Origin")
      ∧ w2.Header.Get (goStr "Access-Control-Allow-Credentials") = goStr "true")
    ∧ CORSMiddleware echoSubject freshResponse
        (sampleRequest "GET" [("Origin", "http://evil.example"), ("X-Clerk-User-Id", "u")])
      = echoSubject freshResponse
        (sampleRequest "GET" [("Origin", "http://evil.example"), ("X-Clerk-User-Id", "u")]) :=
  ⟨(CORSMiddleware_forwards echoSubject freshResponse
      (sampleRequest "GET" [("Origin", "http://localhost:3000")]) (by decide)).2.1 (by decide),
   (CORSMiddleware_forwards echoSubject freshResponse
      (sampleRequest "GET" [("Origin", "http://evil.example"), ("X-Clerk-User-Id", "u")])
      (by decide)).2.2.2 (by decide) (by decide)⟩

theorem Header.Get_congr (h1 h2 : Header) (key : GoString)
    (h : h1.values (CanonicalMIMEHeaderKey key) = h2.values (CanonicalMIMEHeaderKey key)) :
    h1.Get key = h2.Get key := by
  simp only [Header.Get, h]

theorem getAuthHeaderSafe_congr (r1 r2 : Request)
    (hsame : ∀ key, key ≠ goStr "X-Clerk-User-Id" →
      r1.Header.values key = r2.Header.values key) :
    getAuthHeaderSafe r1 = getAuthHeaderSafe r2 := by
  have h1 : r1.Header.Get (goStr "Authorization") = r2.Header.Get (goStr "Authorization") :=
    Header.Get_congr _ _ _ (hsame _ (by decide))
  have h2 : r1.Header.Get (goStr "Authorization-Encoded")
      = r2.Header.Get (goStr "Authorization-Encoded") :=
    Header.Get_congr _ _ _ (hsame _ (by decide))
  simp only [getAuthHeaderSafe, h1, h2]

/-- C18. The subject identifier cannot be supplied by the client.  When
verification succeeds with the claims `claims`, the wrapped handler receives
a request whose `X-Clerk-User-Id` header has the single value
`claims.Subject`, whatever values the client sent under that name; and a
second request that differs from the first only in the values it sends under
`X-Clerk-User-Id` reaches the wrapped handler with the same method and the
same values under every header name. -/
theorem ClerkAuthMiddleware_subject_not_spoofable (client : Client) (w : Response)
    (r1 r2 : Request) (claims : SessionClaims)
    (hauth : getAuthHeaderSafe r1 ≠ [])
    (hverify : client.VerifyToken (TrimPrefix (getAuthHeaderSafe r1) (goStr "Bearer "))
      = .ok claims)
    (hmethod : r1.Method = r2.Method)
    (hsame : ∀ key, key ≠ goStr "X-Clerk-User-Id" →
      r1.Header.values key = r2.Header.values key) :
    ∃ f1 f2 : Request,
      (∀ next, ClerkAuthMiddleware next client w r1 = next w f1)
        ∧ (∀ next, ClerkAuthMiddleware next client w r2 = next w f2)
        ∧ f1.Header.Get (goStr "X-Clerk-User-Id") = claims.Subject
        ∧ f1.Header.values (goStr "X-Clerk-User-Id") = [claims.Subject]
        ∧ f2.Header.Get (goStr "X-Clerk-User-Id") = claims.Subject
        ∧ f1.Method = f2.Method
        ∧ ∀ key, f1.Header.values key = f2.Header.values key := by
  have hauth2 : getAuthHeaderSafe r2 = getAuthHeaderSafe r1 :=
    (getAuthHeaderSafe_congr r1 r2 hsame).symm
  have hcanon : CanonicalMIMEHeaderKey (goStr "X-Clerk-User-Id") = goStr "X-Clerk-User-Id" := by
    decide
  refine ⟨{ r1 with Header := r1.Header.Set (goStr "X-Clerk-User-Id") claims.Subject },
    { r2 with Header := r2.Header.Set (goStr "X-Clerk-User-Id") claims.Subject },
    ?_, ?_, ?_, ?_, ?_, hmethod, ?_⟩
  · intro next
    simp only [ClerkAuthMiddleware, hauth, if_false, hverify]
  · intro next
    simp only [ClerkAuthMiddleware, hauth2, hauth, if_false, hverify]
  · exact Header.Get_Set_same _ _ _ _ rfl
  · simp only [Header.Set, Header.values_setValues, hcanon, if_true]
  · exact Header.Get_Set_same _ _ _ _ rfl
  · intro key
    simp only [Header.Set, Header.values_setValues, hcanon]
    by_cases hk : goStr "X-Clerk-User-Id" = key
    · simp only [hk, if_true]
    · simp only [hk, if_false]
      exact hsame key (Ne.symm hk)

theorem ClerkAuthMiddleware_subject_not_spoofable_witness :
    ∃ f1 f2 : Request,
      (∀ next, ClerkAuthMiddleware next sampleClient freshResponse
          (sampleRequest "GET" [("Authorization", "Bearer good"), ("X-Clerk-User-Id", "admin")])
        = next freshResponse f1)
        ∧ (∀ next, ClerkAuthMiddleware next sampleClient freshResponse
          (sampleRequest "GET" [("Authorization", "Bearer good")]) = next freshResponse f2)
        ∧ f1.Header.Get (goStr "X-Clerk-User-Id") = goStr "user_1"
        ∧ f1.Header.values (goStr "X-Clerk-User-Id") = [goStr "user_1"]
        ∧ f2.Header.Get (goStr "X-Clerk-User-Id") = goStr "user_1"
        ∧ f1.Method = f2.Method
        ∧ ∀ key, f1.Header.values key = f2.Header.values key :=
  ClerkAuthMiddleware_subject_not_spoofable sampleClient freshResponse
    (sampleRequest "GET" [("Authorization", "Bearer good"), ("X-Clerk-User-Id", "admin")])
    (sampleRequest "GET" [("Authorization", "Bearer good")]) ⟨goStr "user_1"⟩
    (by decide) rfl rfl
    (by
      intro key hkey
      have hk : ¬ goStr "X-Clerk-User-Id" = key := fun h => hkey h.symm
      simp [sampleRequest, Header.values, hk])

/-! ## Theorems: the client-identity extractor -/

theorem sanitizeUserInfo_fields (unicodeLower : GoString → GoString) (u : FrontendUserInfo) :
    (sanitizeUserInfo unicodeLower u).UserId
        = (if u.UserId.length > 255 then u.UserId.take 255 else u.UserId)
      ∧ (sanitizeUserInfo unicodeLower u).Username
        = (if u.Username.length > 100 then u.Username.take 100 else u.Username)
      ∧ (sanitizeUserInfo unicodeLower u).Email
        = (if u.Email.length > 255 then u.Email.take 255 else u.Email)
      ∧ (sanitizeUserInfo unicodeLower u).Name
        = (if u.Name.length > 200 then u.Name.take 200 else u.Name)
      ∧ (sanitizeUserInfo unicodeLower u).Avatar
        = (if u.Avatar.length > 500 then u.Avatar.take 500 else u.Avatar)
      ∧ (sanitizeUserInfo unicodeLower u).Preferences = sanitizeMap unicodeLower u.Preferences
      ∧ (sanitizeUserInfo unicodeLower u).Metadata = sanitizeMap unicodeLower u.Metadata := by
  unfold sanitizeUserInfo
  simp only []
  split_ifs <;> simp

theorem capped_length (s : GoString) (n : Nat) :
    (if s.length > n then s.take n else s).length ≤ n := by
  split_ifs with h
  · simp only [List.length_take]
    omega
  · omega

theorem capped_ne_nil (s : GoString) (n : Nat) (hn : 0 < n) (hs : s ≠ []) :
    (if s.length > n then s.take n else s) ≠ [] := by
  split_ifs with h
  · intro hnil
    have hlen : (s.take n).length = 0 := by rw [hnil]; rfl
    simp only [List.length_take] at hlen
    omega
  · exact hs

theorem parseUserInfo_invariant (unicodeLower : GoString → GoString)
    (jsonUnmarshal : GoString → Option FrontendUserInfo) (decodedStr : GoString) :
    (∀ info, (parseUserInfo unicodeLower jsonUnmarshal decodedStr).1 = some info →
        (parseUserInfo unicodeLower jsonUnmarshal decodedStr).2 = none
        ∧ ∃ parsed, jsonUnmarshal decodedStr = some parsed
          ∧ (parsed.UserId ≠ [] ∨ parsed.Username ≠ [] ∨ parsed.Email ≠ [])
          ∧ info = sanitizeUserInfo unicodeLower parsed)
      ∧ (∀ err, (parseUserInfo unicodeLower jsonUnmarshal decodedStr).2 = some err →
        (parseUserInfo unicodeLower jsonUnmarshal decodedStr).1 = none) := by
  unfold parseUserInfo
  cases hp : jsonUnmarshal decodedStr with
  | none => simp
  | some parsed =>
    by_cases hid : parsed.UserId = [] ∧ parsed.Username = [] ∧ parsed.Email = []
    · simp [hid]
    · simp only [hid, if_false]
      refine ⟨?_, by simp⟩
      intro info hinfo
      refine ⟨trivial, parsed, rfl, ?_, ?_⟩
      · by_contra hnone
        apply hid
        simp only [not_or, not_not] at hnone
        exact hnone
      · simp only [Option.some.injEq] at hinfo
        exact hinfo.symm

/-- C15. Validation: when the payload that the request carries passes the size
check, decodes, and parses into a record whose `UserId`, `Username` and
`Email` are all empty, `extractFrontendUserInfo` returns no payload and the
error for missing identification fields, whatever the other fields hold. -/
theorem extractFrontendUserInfo_rejects_unidentified (unicodeLower : GoString → GoString)
    (jsonUnmarshal : GoString → Option FrontendUserInfo) (r : Request)
    (userInfoStr encodingType decodedStr : GoString) (userInfo : FrontendUserInfo)
    (hlocate : locateUserInfo r = some (userInfoStr, encodingType))
    (hsize : userInfoStr.length ≤ 10240)
    (hdecode : decodeUserInfo unicodeLower encodingType userInfoStr = .ok decodedStr)
    (hparse : jsonUnmarshal decodedStr = some userInfo)
    (hid : userInfo.UserId = []) (hname : userInfo.Username = [])
    (hemail : userInfo.Email = []) :
    extractFrontendUserInfo unicodeLower jsonUnmarshal r
      = (none, some ExtractError.missingFields) := by
  have hnot : ¬ userInfoStr.length > 10240 := by omega
  simp only [extractFrontendUserInfo, hlocate, hnot, if_false, hdecode, parseUserInfo, hparse,
    hid, hname, hemail, and_self, if_true]

theorem extractFrontendUserInfo_rejects_unidentified_witness :
    extractFrontendUserInfo id sampleUnmarshal
        (sampleRequest "GET" [("X-User-Info", "\x7b\"name\":\"Ada\"\x7d")])
      = (none, some ExtractError.missingFields) :=
  extractFrontendUserInfo_rejects_unidentified id sampleUnmarshal
    (sampleRequest "GET" [("X-User-Info", "\x7b\"name\":\"Ada\"\x7d")])
    (goStr "\x7b\"name\":\"Ada\"\x7d") (goStr "raw") (goStr "\x7b\"name\":\"Ada\"\x7d")
    { UserId := [], Username := [], Email := [], Name := goStr "Ada", Avatar := [],
      Preferences := none, Metadata := none }
    (by decide) (by decide) rfl rfl rfl rfl rfl

theorem decodeUserInfo_not_tooLarge (unicodeLower : GoString → GoString)
    (encodingType userInfoStr : GoString) (err : ExtractError)
    (h : decodeUserInfo unicodeLower encodingType userInfoStr = .error err) (n : Nat) :
    err ≠ ExtractError.tooLarge n := by
  unfold decodeUserInfo at h
  by_cases h1 : ToLower unicodeLower encodingType = goStr "base64"
  · simp only [h1, if_true] at h
    cases hd : DecodeString userInfoStr with
    | none =>
      rw [hd] at h
      injection h with h
      subst h
      intro hx
      cases hx
    | some d =>
      rw [hd] at h
      cases h
  · by_cases h2 : ToLower unicodeLower encodingType = goStr "raw"
        ∨ ToLower unicodeLower encodingType = []
    · simp only [h1, if_false, h2, if_true] at h
      cases h
    · simp only [h1, if_false, h2] at h
      cases hq : QueryUnescape userInfoStr with
      | none =>
        rw [hq] at h
        injection h with h
        subst h
        intro hx
        cases hx
      | some d =>
        rw [hq] at h
        cases h

theorem parseUserInfo_not_tooLarge (unicodeLower : GoString → GoString)
    (jsonUnmarshal : GoString → Option FrontendUserInfo) (decodedStr : GoString) (n : Nat) :
    (parseUserInfo unicodeLower jsonUnmarshal decodedStr).2 ≠ some (ExtractError.tooLarge n) := by
  unfold parseUserInfo
  split
  · simp
  · split_ifs <;> simp

theorem extractFrontendUserInfo_size (unicodeLower : GoString → GoString)
    (jsonUnmarshal : GoString → Option FrontendUserInfo) (r : Request)
    (userInfoStr encodingType : GoString)
    (hlocate : locateUserInfo r = some (userInfoStr, encodingType)) :
    (userInfoStr.length > 10240 →
        extractFrontendUserInfo unicodeLower jsonUnmarshal r
          = (none, some (ExtractError.tooLarge userInfoStr.length)))
      ∧ (userInfoStr.length ≤ 10240 → ∀ n,
        (extractFrontendUserInfo unicodeLower jsonUnmarshal r).2
          ≠ some (ExtractError.tooLarge n)) := by
  constructor
  · intro hbig
    simp only [extractFrontendUserInfo, hlocate, hbig, if_true]
  · intro hsmall n
    have hnot : ¬ userInfoStr.length > 10240 := by omega
    simp only [extractFrontendUserInfo, hlocate, hnot, if_false]
    cases hd : decodeUserInfo unicodeLower encodingType userInfoStr with
    | error err =>
      simp only [ne_eq, Option.some.injEq]
      exact decodeUserInfo_not_tooLarge unicodeLower encodingType userInfoStr err hd n
    | ok decodedStr =>
      exact parseUserInfo_not_tooLarge unicodeLower jsonUnmarshal decodedStr n

/-- C16. Size limit: a located payload string (the value of
`X-User-Info-Encoded` when there is one, the value of `X-User-Info`
otherwise) of more than 10240 bytes makes `extractFrontendUserInfo` return no
payload and the size-limit error, whatever the encoding type is and whatever
the payload would decode or parse to; a located payload of at most 10240
bytes, in particular of exactly 10240, never gets the size-limit error. -/
theorem extractFrontendUserInfo_size_limit (unicodeLower : GoString → GoString)
    (jsonUnmarshal : GoString → Option FrontendUserInfo) (r : Request) :
    (r.Header.Get (goStr "X-User-Info-Encoded") ≠ [] →
        (r.Header.Get (goStr "X-User-Info-Encoded")).length > 10240 →
        extractFrontendUserInfo unicodeLower jsonUnmarshal r
          = (none, some (ExtractError.tooLarge
              (r.Header.Get (goStr "X-User-Info-Encoded")).length)))
      ∧ (r.Header.Get (goStr "X-User-Info-Encoded") = [] →
        (r.Header.Get (goStr "X-User-Info")).length > 10240 →
        extractFrontendUserInfo unicodeLower jsonUnmarshal r
          = (none, some (ExtractError.tooLarge (r.Header.Get (goStr "X-User-Info")).length)))
      ∧ (r.Header.Get (goStr "X-User-Info-Encoded") ≠ [] →
        (r.Header.Get (goStr "X-User-Info-Encoded")).length ≤ 10240 → ∀ n,
        (extractFrontendUserInfo unicodeLower jsonUnmarshal r).2
          ≠ some (ExtractError.tooLarge n))
      ∧ (r.Header.Get (goStr "X-User-Info-Encoded") = [] →
        (r.Header.Get (goStr "X-User-Info")).length ≤ 10240 → ∀ n,
        (extractFrontendUserInfo unicodeLower jsonUnmarshal r).2
          ≠ some (ExtractError.tooLarge n)) := by
  refine ⟨?_, ?_, ?_, ?_⟩
  · intro henc hbig
    have hlocate : locateUserInfo r
        = some (r.Header.Get (goStr "X-User-Info-Encoded"), encodingMarker r) := by
      simp [locateUserInfo, henc]
    exact (extractFrontendUserInfo_size unicodeLower jsonUnmarshal r _ _ hlocate).1 hbig
  · intro henc hbig
    have hraw : r.Header.Get (goStr "X-User-Info") ≠ [] := by
      intro h
      rw [h] at hbig
      simp at hbig
    have hlocate : locateUserInfo r = some (r.Header.Get (goStr "X-User-Info"), goStr "raw") := by
      simp [locateUserInfo, henc, hraw]
    exact (extractFrontendUserInfo_size unicodeLower jsonUnmarshal r _ _ hlocate).1 hbig
  · intro henc hsmall
    have hlocate : locateUserInfo r
        = some (r.Header.Get (goStr "X-User-Info-Encoded"), encodingMarker r) := by
      simp [locateUserInfo, henc]
    exact (extractFrontendUserInfo_size unicodeLower jsonUnmarshal r _ _ hlocate).2 hsmall
  · intro henc hsmall n
    by_cases hraw : r.Header.Get (goStr "X-User-Info") = []
    · have hlocate : locateUserInfo r = none := by
        simp [locateUserInfo, henc, hraw]
      simp [extractFrontendUserInfo, hlocate]
    · have hlocate : locateUserInfo r
          = some (r.Header.Get (goStr "X-User-Info"), goStr "raw") := by
        simp [locateUserInfo, henc, hraw]
      exact (extractFrontendUserInfo_size unicodeLower jsonUnmarshal r _ _ hlocate).2 hsmall n

theorem paddedRequest_payload (n : Nat) :
    (paddedRequest n).Header.Get (goStr "X-User-Info-Encoded") = []
      ∧ ((paddedRequest n).Header.Get (goStr "X-User-Info")).length = n := by
  have h1 : (paddedRequest n).Header.Get (goStr "X-User-Info-Encoded") = [] := rfl
  have h2 : (paddedRequest n).Header.Get (goStr "X-User-Info") = List.replicate n 97 := rfl
  rw [h2, List.length_replicate]
  exact ⟨h1, rfl⟩

theorem extractFrontendUserInfo_size_limit_witness :
    extractFrontendUserInfo id sampleUnmarshal (paddedRequest 10241)
        = (none, some (ExtractError.tooLarge
            ((paddedRequest 10241).Header.Get (goStr "X-User-Info")).length))
      ∧ ∀ n, (extractFrontendUserInfo id sampleUnmarshal (paddedRequest 10240)).2
          ≠ some (ExtractError.tooLarge n) :=
  ⟨(extractFrontendUserInfo_size_limit id sampleUnmarshal (paddedRequest 10241)).2.1
      (paddedRequest_payload 10241).1
      (by rw [(paddedRequest_payload 10241).2]; decide),
   (extractFrontendUserInfo_size_limit id sampleUnmarshal (paddedRequest 10240)).2.2.2
      (paddedRequest_payload 10240).1
      (by rw [(paddedRequest_payload 10240).2])⟩

/-- C17. Invariant of the returned payload.  Whenever `extractFrontendUserInfo`
returns a payload, it returns no error; the payload is `sanitizeUserInfo` of
the record that the decoded text parses to, so its preferences and metadata
are `sanitizeMap` of the parsed ones; at least one of `UserId`, `Username`,
`Email` is not empty; and the fields are at most 255, 100, 255, 200 and 500
bytes long.  Whenever it returns an error, it returns no payload. -/
theorem extractFrontendUserInfo_invariant (unicodeLower : GoString → GoString)
    (jsonUnmarshal : GoString → Option FrontendUserInfo) (r : Request) :
    (∀ info, (extractFrontendUserInfo unicodeLower jsonUnmarshal r).1 = some info →
        (extractFrontendUserInfo unicodeLower jsonUnmarshal r).2 = none
        ∧ (info.UserId ≠ [] ∨ info.Username ≠ [] ∨ info.Email ≠ [])
        ∧ info.UserId.length ≤ 255 ∧ info.Username.length ≤ 100 ∧ info.Email.length ≤ 255
        ∧ info.Name.length ≤ 200 ∧ info.Avatar.length ≤ 500
        ∧ ∃ userInfoStr encodingType decodedStr parsed,
            locateUserInfo r = some (userInfoStr, encodingType)
            ∧ decodeUserInfo unicodeLower encodingType userInfoStr = .ok decodedStr
            ∧ jsonUnmarshal decodedStr = some parsed
            ∧ info = sanitizeUserInfo unicodeLower parsed
            ∧ info.Preferences = sanitizeMap unicodeLower parsed.Preferences
            ∧ info.Metadata = sanitizeMap unicodeLower parsed.Metadata)
      ∧ (∀ err, (extractFrontendUserInfo unicodeLower jsonUnmarshal r).2 = some err →
        (extractFrontendUserInfo unicodeLower jsonUnmarshal r).1 = none) := by
  unfold extractFrontendUserInfo
  cases hl : locateUserInfo r with
  | none => simp
  | some located =>
    obtain ⟨userInfoStr, encodingType⟩ := located
    by_cases hbig : userInfoStr.length > 10240
    · simp [hbig]
    · simp only [hbig, if_false]
      cases hd : decodeUserInfo unicodeLower encodingType userInfoStr with
      | error err => simp
      | ok decodedStr =>
        have hinv := parseUserInfo_invariant unicodeLower jsonUnmarshal decodedStr
        refine ⟨?_, hinv.2⟩
        intro info hinfo
        obtain ⟨hnone, parsed, hparse, hident, hsan⟩ := hinv.1 info hinfo
        have hf := sanitizeUserInfo_fields unicodeLower parsed
        rw [← hsan] at hf
        obtain ⟨hUserId, hUsername, hEmail, hName, hAvatar, hPrefs, hMeta⟩ := hf
        refine ⟨hnone, ?_, ?_, ?_, ?_, ?_, ?_,
          userInfoStr, encodingType, decodedStr, parsed, rfl, hd, hparse, hsan, hPrefs, hMeta⟩
        · rcases hident with h | h | h
          · exact Or.inl (hUserId ▸ capped_ne_nil _ 255 (by decide) h)
          · exact Or.inr (Or.inl (hUsername ▸ capped_ne_nil _ 100 (by decide) h))
          · exact Or.inr (Or.inr (hEmail ▸ capped_ne_nil _ 255 (by decide) h))
        · rw [hUserId]; exact capped_length _ _
        · rw [hUsername]; exact capped_length _ _
        · rw [hEmail]; exact capped_length _ _
        · rw [hName]; exact capped_length _ _
        · rw [hAvatar]; exact capped_length _ _

theorem extractFrontendUserInfo_invariant_witness :
    (extractFrontendUserInfo id sampleUnmarshal
        (sampleRequest "GET" [("X-User-Info", "\x7b\"username\":\"ada\"\x7d")])).2 = none
      ∧ (extractFrontendUserInfo id sampleUnmarshal
        (sampleRequest "GET" [("X-User-Info", "\x7b\"name\":\"Ada\"\x7d")])).1 = none :=
  ⟨((extractFrontendUserInfo_invariant id sampleUnmarshal
      (sampleRequest "GET" [("X-User-Info", "\x7b\"username\":\"ada\"\x7d")])).1
      { UserId := [], Username := goStr "ada", Email := [], Name := [], Avatar := [],
        Preferences := none, Metadata := none } rfl).1,
   (extractFrontendUserInfo_invariant id sampleUnmarshal
      (sampleRequest "GET" [("X-User-Info", "\x7b\"name\":\"Ada\"\x7d")])).2
      ExtractError.missingFields rfl⟩

/-- C19, as stated, fails: without the header `X-User-Info-Encoded-Type`, the
payload text `BASE64` is not literally `base64` or `raw`, yet it is
base64-decoded and not percent-decoded: the result is the base64 error, where
percent-decoding would succeed and lead to the parse error. -/
theorem extractFrontendUserInfo_literal_token_counterexample :
    encodingMarker (sampleRequest "GET" [("X-User-Info-Encoded", "BASE64")]) = goStr "BASE64"
      ∧ goStr "BASE64" ≠ goStr "base64" ∧ goStr "BASE64" ≠ goStr "raw"
      ∧ extractFrontendUserInfo id sampleUnmarshal
          (sampleRequest "GET" [("X-User-Info-Encoded", "BASE64")])
        = (none, some ExtractError.base64)
      ∧ QueryUnescape (goStr "BASE64") = some (goStr "BASE64")
      ∧ parseUserInfo id sampleUnmarshal (goStr "BASE64") = (none, some ExtractError.parse)
      ∧ ExtractError.base64 ≠ ExtractError.parse :=
  ⟨by decide, by decide, by decide, rfl, by decide, rfl, by decide⟩

/-- C19, amended.  When `X-User-Info-Encoded` is not empty (and within the size
limit), the encoding token is `X-User-Info-Encoded-Type`, or the value of
`X-User-Info-Encoded` itself when that header is empty; the payload is
decoded with `base64.StdEncoding` when the lower-cased token is `base64`,
not decoded when it is `raw`, and percent-decoded when it is any other
non-empty text.  When only `X-User-Info` is present, it is used without
decoding. -/
theorem extractFrontendUserInfo_encoding (unicodeLower : GoString → GoString)
    (jsonUnmarshal : GoString → Option FrontendUserInfo) (r : Request) :
    (r.Header.Get (goStr "X-User-Info-Encoded-Type") ≠ [] →
        encodingMarker r = r.Header.Get (goStr "X-User-Info-Encoded-Type"))
      ∧ (r.Header.Get (goStr "X-User-Info-Encoded-Type") = [] →
        encodingMarker r = r.Header.Get (goStr "X-User-Info-Encoded"))
      ∧ (r.Header.Get (goStr "X-User-Info-Encoded") ≠ [] →
        (r.Header.Get (goStr "X-User-Info-Encoded")).length ≤ 10240 →
        (ToLower unicodeLower (encodingMarker r) = goStr "base64" →
            extractFrontendUserInfo unicodeLower jsonUnmarshal r
              = match DecodeString (r.Header.Get (goStr "X-User-Info-Encoded")) with
                | some decodedBytes => parseUserInfo unicodeLower jsonUnmarshal decodedBytes
                | none => (none, some ExtractError.base64))
          ∧ (ToLower unicodeLower (encodingMarker r) = goStr "raw" →
            extractFrontendUserInfo unicodeLower jsonUnmarshal r
              = parseUserInfo unicodeLower jsonUnmarshal
                  (r.Header.Get (goStr "X-User-Info-Encoded")))
          ∧ (ToLower unicodeLower (encodingMarker r) ≠ goStr "base64" →
            ToLower unicodeLower (encodingMarker r) ≠ goStr "raw" →
            ToLower unicodeLower (encodingMarker r) ≠ [] →
            extractFrontendUserInfo unicodeLower jsonUnmarshal r
              = match QueryUnescape (r.Header.Get (goStr "X-User-Info-Encoded")) with
                | some decodedStr => parseUserInfo unicodeLower jsonUnmarshal decodedStr
                | none => (none, some (ExtractError.unescape (encodingMarker r)))))
      ∧ (r.Header.Get (goStr "X-User-Info-Encoded") = [] →
        r.Header.Get (goStr "X-User-Info") ≠ [] →
        (r.Header.Get (goStr "X-User-Info")).length ≤ 10240 →
        extractFrontendUserInfo unicodeLower jsonUnmarshal r
          = parseUserInfo unicodeLower jsonUnmarshal (r.Header.Get (goStr "X-User-Info"))) := by
  refine ⟨?_, ?_, ?_, ?_⟩
  · intro htype
    simp only [encodingMarker, htype, if_false]
  · intro htype
    simp only [encodingMarker, htype, if_true]
  · intro henc hsize
    have hnot : ¬ (r.Header.Get (goStr "X-User-Info-Encoded")).length > 10240 := by omega
    have hlocate : locateUserInfo r
        = some (r.Header.Get (goStr "X-User-Info-Encoded"), encodingMarker r) := by
      simp [locateUserInfo, henc]
    refine ⟨?_, ?_, ?_⟩
    · intro hb
      simp only [extractFrontendUserInfo, hlocate, hnot, if_false, decodeUserInfo, hb, if_true]
      cases DecodeString (r.Header.Get (goStr "X-User-Info-Encoded")) <;> rfl
    · intro hraw
      have hne : goStr "raw" ≠ goStr "base64" := by decide
      simp only [extractFrontendUserInfo, hlocate, hnot, if_false, decodeUserInfo, hraw, hne,
        true_or, if_true]
    · intro hb hraw hempty
      simp only [extractFrontendUserInfo, hlocate, hnot, if_false, decodeUserInfo, hb, hraw,
        hempty, or_self]
      cases QueryUnescape (r.Header.Get (goStr "X-User-Info-Encoded")) <;> rfl
  · intro henc hraw hsize
    have hnot : ¬ (r.Header.Get (goStr "X-User-Info")).length > 10240 := by omega
    have hlocate : locateUserInfo r
        = some (r.Header.Get (goStr "X-User-Info"), goStr "raw") := by
      simp [locateUserInfo, henc, hraw]
    have hlow : ToLower unicodeLower (goStr "raw") = goStr "raw" := rfl
    have hne : goStr "raw" ≠ goStr "base64" := by decide
    simp only [extractFrontendUserInfo, hlocate, hnot, if_false, decodeUserInfo, hlow, hne,
      true_or, if_true]

theorem extractFrontendUserInfo_encoding_witness :
    extractFrontendUserInfo id sampleUnmarshal
        (sampleRequest "GET" [("X-User-Info-Encoded", "eyJ1c2VybmFtZSI6ImFkYSJ9"),
          ("X-User-Info-Encoded-Type", "Base64")])
      = (match DecodeString ((sampleRequest "GET"
            [("X-User-Info-Encoded", "eyJ1c2VybmFtZSI6ImFkYSJ9"),
              ("X-User-Info-Encoded-Type", "Base64")]).Header.Get
              (goStr "X-User-Info-Encoded")) with
          | some decodedBytes => parseUserInfo id sampleUnmarshal decodedBytes
          | none => (none, some ExtractError.base64))
      ∧ extractFrontendUserInfo id sampleUnmarshal
        (sampleRequest "GET" [("X-User-Info-Encoded", "%7B%22username%22%3A%22ada%22%7D")])
      = (match QueryUnescape ((sampleRequest "GET"
            [("X-User-Info-Encoded", "%7B%22username%22%3A%22ada%22%7D")]).Header.Get
              (goStr "X-User-Info-Encoded")) with
          | some decodedStr => parseUserInfo id sampleUnmarshal decodedStr
          | none => (none, some (ExtractError.unescape (encodingMarker (sampleRequest "GET"
              [("X-User-Info-Encoded", "%7B%22username%22%3A%22ada%22%7D")]))))) :=
  ⟨((extractFrontendUserInfo_encoding id sampleUnmarshal
      (sampleRequest "GET" [("X-User-Info-Encoded", "eyJ1c2VybmFtZSI6ImFkYSJ9"),
        ("X-User-Info-Encoded-Type", "Base64")])).2.2.1 (by decide) (by decide)).1 (by decide),
   ((extractFrontendUserInfo_encoding id sampleUnmarshal
      (sampleRequest "GET" [("X-User-Info-Encoded", "%7B%22username%22%3A%22ada%22%7D")])).2.2.1
      (by decide) (by decide)).2.2 (by decide) (by decide) (by decide)⟩

/-! ## Theorems: the full name -/

/-- C20. The full name of the composed profile is the first name of the
record, a space, and the last name of the record (an absent name counting as
empty), with or without a client payload.  So the record `Grace`/`Hopper`
has the full name `Grace Hopper` with the payload `Ada Lovelace` as without
one; the record with only the last name `Hopper` has the full name ` Hopper`;
and for the record without names and the payload `Ada Lovelace` the full name
is a single space while the names of the profile are `Ada` and `Lovelace`. -/
theorem buildDetailedUserProfile_fullName (user : User) (info : Option FrontendUserInfo) :
    (buildDetailedUserProfile user info).get (goStr "fullName")
        = Dyn.string (user.FirstName.getD [] ++ [32] ++ user.LastName.getD [])
      ∧ (buildDetailedUserProfile user info).get (goStr "fullName")
        = (buildDetailedUserProfile user none).get (goStr "fullName")
      ∧ (∀ first last, user.FirstName = some first → user.LastName = some last →
          (buildDetailedUserProfile user info).get (goStr "fullName")
            = Dyn.string (first ++ [32] ++ last))
      ∧ (user.FirstName = none → user.LastName = none →
          (buildDetailedUserProfile user info).get (goStr "fullName") = Dyn.string [32])
      ∧ (buildDetailedUserProfile graceUser (some adaPayload)).get (goStr "fullName")
          = Dyn.string (goStr "Grace Hopper")
      ∧ (buildDetailedUserProfile graceUser none).get (goStr "fullName")
          = Dyn.string (goStr "Grace Hopper")
      ∧ (buildDetailedUserProfile { bareUser with LastName := some (goStr "Hopper") }
            (some adaPayload)).get (goStr "fullName") = Dyn.string (goStr " Hopper")
      ∧ (buildDetailedUserProfile bareUser (some adaPayload)).get (goStr "fullName")
          = Dyn.string (goStr " ")
      ∧ (buildDetailedUserProfile bareUser (some adaPayload)).get (goStr "firstName")
          = Dyn.string (goStr "Ada")
      ∧ (buildDetailedUserProfile bareUser (some adaPayload)).get (goStr "lastName")
          = Dyn.string (goStr "Lovelace")
      ∧ goStr " " ≠ goStr "Ada" ++ goStr " " ++ goStr "Lovelace" := by
  have hspace : goStr " " = [32] := by decide
  have h0 : (addCollections user (baseProfile user)).get (goStr "fullName")
      = Dyn.string (user.FirstName.getD [] ++ [32] ++ user.LastName.getD []) := by
    rw [addCollections_get user _ _ (by decide) (by decide) (by decide),
      ← getStringValue_eq_getD, ← getStringValue_eq_getD, ← hspace]
    rfl
  have hall : ∀ i : Option FrontendUserInfo,
      (buildDetailedUserProfile user i).get (goStr "fullName")
        = Dyn.string (user.FirstName.getD [] ++ [32] ++ user.LastName.getD []) := by
    intro i
    cases i with
    | none => exact h0
    | some fi =>
      show (addFrontendInfo fi _).get _ = _
      rw [addFrontendInfo_get fi _ _ (by decide) (by decide) (by decide) (by decide)
        (by decide)]
      exact h0
  refine ⟨hall info, (hall info).trans (hall none).symm, ?_, ?_, rfl, rfl, rfl, rfl, rfl, rfl,
    by decide⟩
  · intro first last hf hl
    rw [hall info, hf, hl]
    rfl
  · intro hf hl
    rw [hall info, hf, hl]
    rfl

theorem buildDetailedUserProfile_fullName_witness :
    (buildDetailedUserProfile graceUser (some adaPayload)).get (goStr "fullName")
        = Dyn.string (goStr "Grace Hopper")
      ∧ (buildDetailedUserProfile bareUser (some adaPayload)).get (goStr "fullName")
        = Dyn.string (goStr " ") :=
  ⟨(buildDetailedUserProfile_fullName graceUser (some adaPayload)).2.2.1
      (goStr "Grace") (goStr "Hopper") rfl rfl,
   (buildDetailedUserProfile_fullName bareUser (some adaPayload)).2.2.2.1 rfl rfl⟩

end ClerkBackend
